/-
Verification development for the 304 card-game engine
(backend/lambda/game_logic plus _serialization.py).

The Python sources are shallowly embedded: every dataclass becomes a
structure, every function a Lean definition with the same name, Python
dicts become insertion-ordered association lists, and Python exceptions
(attribute errors, ValueError from `list.remove`, ...) are modelled with
`Option`/error results.  An exception escapes the handler before the
dispatcher persists the snapshot, so an aborted action is modelled as an
error result carrying the unchanged input state.
-/
import Mathlib

set_option maxHeartbeats 1000000

namespace Trump304

/-! ## models.py -/

inductive Suit where
  | hearts | diamonds | clubs | spades
deriving DecidableEq, Repr

/-- `Suit.value` — the string value of the `Suit` enum. -/
def Suit.value : Suit → String
  | .hearts => "hearts"
  | .diamonds => "diamonds"
  | .clubs => "clubs"
  | .spades => "spades"

/-- `Suit(suit_str)` — enum lookup by value; raising is `none`. -/
def Suit.fromString : String → Option Suit
  | "hearts" => some .hearts
  | "diamonds" => some .diamonds
  | "clubs" => some .clubs
  | "spades" => some .spades
  | _ => none

inductive Rank where
  | seven | eight | queen | king | ten | ace | nine | jack
deriving DecidableEq, Repr

/-- `Rank.value` — the string value of the `Rank` enum. -/
def Rank.value : Rank → String
  | .seven => "7"
  | .eight => "8"
  | .queen => "Q"
  | .king => "K"
  | .ten => "10"
  | .ace => "A"
  | .nine => "9"
  | .jack => "J"

/-- `Rank(rank_str)` — enum lookup by value; raising is `none`. -/
def Rank.fromString : String → Option Rank
  | "7" => some .seven
  | "8" => some .eight
  | "Q" => some .queen
  | "K" => some .king
  | "10" => some .ten
  | "A" => some .ace
  | "9" => some .nine
  | "J" => some .jack
  | _ => none

/-- `RANK_POINTS` -/
def RANK_POINTS : Rank → Nat
  | .seven => 0
  | .eight => 0
  | .queen => 2
  | .king => 3
  | .ten => 10
  | .ace => 11
  | .nine => 20
  | .jack => 30

/-- `RANK_ORDER` -/
def RANK_ORDER : Rank → Nat
  | .seven => 0
  | .eight => 1
  | .queen => 2
  | .king => 3
  | .ten => 4
  | .ace => 5
  | .nine => 6
  | .jack => 7

inductive GamePhase where
  | WAITING | DEALING | BIDDING | TRUMP_SELECTION | CARD_EXCHANGE | PLAYING | SCORING
deriving DecidableEq, Repr

/-- `GamePhase.value` -/
def GamePhase.value : GamePhase → String
  | .WAITING => "WAITING"
  | .DEALING => "DEALING"
  | .BIDDING => "BIDDING"
  | .TRUMP_SELECTION => "TRUMP_SELECTION"
  | .CARD_EXCHANGE => "CARD_EXCHANGE"
  | .PLAYING => "PLAYING"
  | .SCORING => "SCORING"

/-- `GamePhase(phase_str)` — enum lookup by value. -/
def GamePhase.fromString : String → Option GamePhase
  | "WAITING" => some .WAITING
  | "DEALING" => some .DEALING
  | "BIDDING" => some .BIDDING
  | "TRUMP_SELECTION" => some .TRUMP_SELECTION
  | "CARD_EXCHANGE" => some .CARD_EXCHANGE
  | "PLAYING" => some .PLAYING
  | "SCORING" => some .SCORING
  | _ => none

structure Card where
  suit : Suit
  rank : Rank
deriving DecidableEq, Repr

instance : Inhabited Card := ⟨⟨.hearts, .seven⟩⟩

/-- `Card.points` -/
def Card.points (c : Card) : Nat := RANK_POINTS c.rank

/-- `Card.order` -/
def Card.order (c : Card) : Nat := RANK_ORDER c.rank

/-- `Card.id` — `f"{self.rank.value}_{self.suit.value}"`. -/
def Card.id (c : Card) : String := c.rank.value ++ "_" ++ c.suit.value

/-- `card_id.rsplit("_", 1)`: split a character list at its LAST underscore;
`none` when there is no underscore (the unpack then raises). -/
def rsplitUnderscore : List Char → Option (List Char × List Char)
  | [] => none
  | c :: rest =>
    match rsplitUnderscore rest with
    | some (a, b) => some (c :: a, b)
    | none => if c = '_' then some ([], rest) else none

/-- `Card.from_id` — parse `"<rank>_<suit>"`; any `ValueError` is `none`. -/
def Card.fromId (card_id : String) : Option Card := do
  let (rankChars, suitChars) ← rsplitUnderscore card_id.data
  let rank ← Rank.fromString ⟨rankChars⟩
  let suit ← Suit.fromString ⟨suitChars⟩
  pure ⟨suit, rank⟩

/-- `Card.beats` — trick-comparison predicate from models.py. -/
def Card.beats (self other : Card) (trump_suit : Option Suit)
    (trump_revealed : Bool) (calling_suit : Suit) : Bool :=
  -- Trump beats non-trump (only if trump is revealed)
  if trump_revealed ∧ trump_suit.isSome then
    if some self.suit = trump_suit ∧ some other.suit ≠ trump_suit then true
    else if some self.suit ≠ trump_suit ∧ some other.suit = trump_suit then false
    else beatsPlain self other calling_suit
  else beatsPlain self other calling_suit
where
  /-- the non-trump part of `beats` (same-suit comparison, then lead suit). -/
  beatsPlain (self other : Card) (calling_suit : Suit) : Bool :=
    if self.suit = other.suit then
      if self.points ≠ other.points then self.points > other.points
      else self.order > other.order
    else if other.suit = calling_suit then false
    else if self.suit = calling_suit then true
    else false

structure Player where
  player_id : String
  name : String
  seat : Nat
  connection_id : Option String := none
  hand : List Card := []
deriving DecidableEq, Repr

structure Bid where
  seat : Nat
  amount : Option Nat  -- none = pass
deriving DecidableEq, Repr

structure TrickCard where
  seat : Nat
  card : Card
deriving DecidableEq, Repr

structure GameState where
  game_code : String
  mode : Nat
  phase : GamePhase := .WAITING
  players : List Player := []
  dealer_seat : Nat := 0
  deck : List Card := []
  center_pile : List Card := []
  bids : List Bid := []
  current_bid : Option Bid := none
  bid_turn_seat : Option Nat := none
  trumper_seat : Option Nat := none
  trump_suit : Option Suit := none
  trump_card : Option Card := none
  trump_revealed : Bool := false
  exchange_done : Bool := false
  current_trick : List TrickCard := []
  tricks_won : List (Nat × List Card) := []   -- dict: seat -> won cards
  turn_seat : Option Nat := none
  turn_deadline : Option String := none
  trick_number : Nat := 0
  lead_seat : Option Nat := none
  scores : List (Nat × Nat) := []             -- dict: seat -> cumulative score
  games_played : Nat := 0
  created_at : Option String := none
  ttl : Option Nat := none
deriving DecidableEq, Repr

/-- `GameState.get_player_by_seat` — first player with the given seat. -/
def getPlayerBySeat (ps : List Player) (seat : Nat) : Option Player :=
  match ps with
  | [] => none
  | p :: rest => if p.seat = seat then some p else getPlayerBySeat rest seat

/-- Insertion sort on naturals, modelling Python `sorted`. -/
def insertSorted (x : Nat) : List Nat → List Nat
  | [] => [x]
  | y :: ys => if x ≤ y then x :: y :: ys else y :: insertSorted x ys

/-- Python `sorted` on a list of seats. -/
def sortNat (l : List Nat) : List Nat := l.foldr insertSorted []

/-- Python `list.index` for seats: index of the first occurrence
(callers only use it on members, where `.index` cannot raise). -/
def idxOf (l : List Nat) (x : Nat) : Nat :=
  match l with
  | [] => 0
  | y :: ys => if y = x then 0 else idxOf ys x + 1

/-- `GameState.next_seat` — next active seat clockwise. -/
def next_seat (g : GameState) (seat : Nat) : Nat :=
  let seats := sortNat (g.players.map Player.seat)
  seats.getD ((idxOf seats seat + 1) % seats.length) 0

/-- `GameState.get_team` — seats on the same team. -/
def get_team (g : GameState) (seat : Nat) : List Nat :=
  if g.mode = 4 then [seat, (seat + 2) % 4]
  else
    match g.trumper_seat with
    | some t =>
      if g.mode = 3 then
        if seat = t then [seat] else (List.range 3).filter (fun s => s ≠ t)
      else [seat]
    | none => [seat]

/-- `GameState.get_trumper_team_seats` -/
def get_trumper_team_seats (g : GameState) : List Nat :=
  match g.trumper_seat with
  | none => []
  | some t => get_team g t

/-- `GameState.get_opposing_team_seats` -/
def get_opposing_team_seats (g : GameState) : List Nat :=
  match g.trumper_seat with
  | none => []
  | some _ =>
    let trumper_team := get_trumper_team_seats g
    (g.players.map Player.seat).filter (fun s => s ∉ trumper_team)

/-- Mutate (only) the first player with the given seat, as Python does when
it mutates the object returned by `get_player_by_seat`. -/
def updateHand (ps : List Player) (seat : Nat) (f : List Card → List Card) :
    List Player :=
  match ps with
  | [] => []
  | p :: rest =>
    if p.seat = seat then { p with hand := f p.hand } :: rest
    else p :: updateHand rest seat f

/-- `hand.remove(card)` — removes the first occurrence; raising is `none`. -/
def removeCard (hand : List Card) (c : Card) : Option (List Card) :=
  if c ∈ hand then some (hand.erase c) else none

/-- `tricks_won[seat]` defaulting plus `.extend(cards)` on a dict modelled as
an insertion-ordered association list. -/
def alistExtend (tw : List (Nat × List Card)) (seat : Nat) (cs : List Card) :
    List (Nat × List Card) :=
  match tw with
  | [] => [(seat, cs)]
  | (k, v) :: rest =>
    if k = seat then (k, v ++ cs) :: rest else (k, v) :: alistExtend rest seat cs

/-- `scores.get(seat, default)` on the association-list dict. -/
def alistGetD (m : List (Nat × Nat)) (k d : Nat) : Nat :=
  match m with
  | [] => d
  | (k', v) :: rest => if k' = k then v else alistGetD rest k d

/-- `scores[seat] = v` — update in place, or append a new key. -/
def alistSet (m : List (Nat × Nat)) (k v : Nat) : List (Nat × Nat) :=
  match m with
  | [] => [(k, v)]
  | (k', v') :: rest =>
    if k' = k then (k, v) :: rest else (k', v') :: alistSet rest k v

/-! ## deck.py -/

/-- the enumeration order of the `Suit` enum. -/
def suitList : List Suit := [.hearts, .diamonds, .clubs, .spades]

/-- the enumeration order of the `Rank` enum. -/
def rankList : List Rank := [.seven, .eight, .queen, .king, .ten, .ace, .nine, .jack]

/-- `create_deck` — `[Card(suit=s, rank=r) for s in Suit for r in Rank]`. -/
def create_deck : List Card :=
  suitList.flatMap (fun s => rankList.map (fun r => Card.mk s r))

/-- Give cards to (the first player at) a seat: `player.hand.extend(...)`. -/
def giveToSeat (ps : List Player) (seat : Nat) (cs : List Card) : List Player :=
  updateHand ps seat (fun h => h ++ cs)

/-- The dealing loop of `deal`, flattened to `(batch_size, seat)` pairs in
visit order; `card_idx` is threaded exactly as in the source. -/
def dealLoop (deck : List Card) :
    List (Nat × Nat) → Nat → List Player → List Player × Nat
  | [], idx, ps => (ps, idx)
  | (b, s) :: rest, idx, ps =>
      dealLoop deck rest (idx + b) (giveToSeat ps s ((deck.drop idx).take b))

/-- `deal`, with the shuffled deck injected (`random.shuffle` is the game's
rng capability; a shuffled deck is any permutation of `create_deck`). -/
def dealWith (g : GameState) (deck : List Card) : GameState :=
  let num_players := g.players.length
  let seats := sortNat (g.players.map Player.seat)
  -- Clear existing hands
  let g1 : GameState :=
    { g with players := g.players.map (fun p => { p with hand := [] }),
             center_pile := [] }
  -- Determine dealing order starting from left of dealer
  let dealer_idx := idxOf seats g1.dealer_seat
  let deal_order :=
    (List.range num_players).map
      (fun i => seats.getD ((dealer_idx + 1 + i) % num_players) 0)
  let g2 : GameState :=
    if g1.mode = 2 then
      let r := dealLoop deck ([4, 4, 2].flatMap (fun b => deal_order.map (fun s => (b, s)))) 0 g1.players
      { g1 with players := r.1, center_pile := deck.drop r.2 }
    else if g1.mode = 3 then
      let r := dealLoop deck ([4, 4, 2].flatMap (fun b => deal_order.map (fun s => (b, s)))) 0 g1.players
      { g1 with players := r.1, center_pile := deck.drop r.2 }
    else if g1.mode = 4 then
      let r := dealLoop deck ([4, 4].flatMap (fun b => deal_order.map (fun s => (b, s)))) 0 g1.players
      { g1 with players := r.1 }
    else g1
  { g2 with deck := [] }  -- All cards dealt out or in center pile

/-! ## bidding.py -/

def MIN_BID : Nat := 150
def MAX_BID : Nat := 304
def BID_STEP : Nat := 10
def SPECIAL_BID_THRESHOLD : Nat := 200

/-- `start_bidding` -/
def start_bidding (g : GameState) : GameState :=
  { g with phase := .BIDDING, bids := [], current_bid := none,
           bid_turn_seat := some (next_seat g g.dealer_seat) }

/-- `get_partner_seat` -/
def get_partner_seat (g : GameState) (seat : Nat) : Option Nat :=
  if g.mode ≠ 4 then none else some ((seat + 2) % 4)

/-- `_player_has_bid` -/
def playerHasBid (g : GameState) (seat : Nat) : Bool :=
  g.bids.any (fun b => b.seat = seat)

/-- `_highest_bid_amount` -/
def highestBidAmount (g : GameState) : Nat :=
  (g.bids.filterMap Bid.amount).foldl max 0

/-- `_any_200_plus_bid` -/
def any200PlusBid (g : GameState) : Bool :=
  g.bids.any (fun b => match b.amount with
    | some a => SPECIAL_BID_THRESHOLD ≤ a
    | none => false)

/-- `_partner_bid_amount` — first non-pass bid of the partner. -/
def partnerBidAmount (g : GameState) (seat : Nat) : Option Nat :=
  match get_partner_seat g seat with
  | none => none
  | some partner =>
    (g.bids.find? (fun b => b.seat = partner ∧ b.amount.isSome)).bind Bid.amount

/-- `validate_bid` -/
def validate_bid (g : GameState) (seat : Nat) (amount : Option Nat) :
    Bool × String :=
  if g.phase ≠ .BIDDING then (false, "Not in bidding phase")
  else if g.bid_turn_seat ≠ some seat then (false, "Not your turn to bid")
  else
    match amount with
    | none => (true, "")  -- Pass is always allowed
    | some amt =>
      if amt < MIN_BID then (false, "Minimum bid too low")
      else if MAX_BID < amt then (false, "Maximum bid exceeded")
      else if amt ≠ MAX_BID ∧ amt % BID_STEP ≠ 0 then (false, "Bid must be a multiple of 10")
      else
        let current_highest := highestBidAmount g
        if 0 < current_highest ∧ amt ≤ current_highest then
          (false, "Bid must exceed current highest bid")
        else
          let has_bid := playerHasBid g seat
          let any_200 := any200PlusBid g
          let is_200_plus := SPECIAL_BID_THRESHOLD ≤ amt
          if has_bid ∧ ¬(is_200_plus ∧ ¬any_200) then
            (false, "You have already bid or passed")
          else
            let own_bids := (g.bids.filter (fun b => b.seat = seat)).filterMap Bid.amount
            let self_block :=
              match own_bids with
              | [] => false
              | _ =>
                let my_highest := own_bids.foldl max 0
                let someone_overbid := g.bids.any (fun b =>
                  match b.amount with
                  | some a => my_highest < a ∧ b.seat ≠ seat
                  | none => false)
                ¬someone_overbid
            if self_block then
              (false, "Cannot overbid yourself unless someone has overbid you")
            else
              match partnerBidAmount g seat with
              | some partner_amount =>
                if partner_amount < amt then
                  let partner := get_partner_seat g seat
                  let opponent_overbid_partner := g.bids.any (fun b =>
                    match b.amount with
                    | some a =>
                      partner_amount < a ∧ b.seat ≠ seat ∧ some b.seat ≠ partner
                    | none => false)
                  if ¬opponent_overbid_partner ∧ ¬(is_200_plus ∧ ¬any_200) then
                    (false, "Cannot overbid your partner unless an opponent has overbid them")
                  else (true, "")
                else (true, "")
              | none => (true, "")

/-- The search loop of `_advance_bidding`: step clockwise at most
`num_players` times looking for a seat that has not bid yet. -/
def advanceLoop (g : GameState) (current : Nat) : Nat → Option Nat
  | 0 => none
  | fuel + 1 =>
    let c := next_seat g current
    if playerHasBid g c then advanceLoop g c fuel else some c

structure BidResult where
  next_bidder : Option Nat := none
  bidding_complete : Bool := false
  trumper_seat : Option Nat := none
  bid : Option Nat := none
deriving DecidableEq, Repr

/-- `_conclude_bidding` -/
def concludeBidding (g : GameState) : GameState × BidResult :=
  let g :=
    match g.current_bid with
    | none =>
      -- No one bid — dealer forced to bid minimum
      let forced_bid : Bid := ⟨g.dealer_seat, some MIN_BID⟩
      { g with bids := g.bids ++ [forced_bid], current_bid := some forced_bid }
    | some _ => g
  let trumper := (g.current_bid.map Bid.seat)
  let g := { g with trumper_seat := trumper, phase := .TRUMP_SELECTION }
  (g, { bidding_complete := true, trumper_seat := trumper,
        bid := g.current_bid.bind Bid.amount })

/-- `_advance_bidding` -/
def advanceBidding (g : GameState) : GameState × BidResult :=
  match advanceLoop g (g.bid_turn_seat.getD 0) g.players.length with
  | some c => ({ g with bid_turn_seat := some c }, { next_bidder := some c })
  | none => concludeBidding g

/-- `place_bid` (assumes `validate_bid` was called first). -/
def place_bid (g : GameState) (seat : Nat) (amount : Option Nat) :
    GameState × BidResult :=
  let bid : Bid := ⟨seat, amount⟩
  let g := { g with bids := g.bids ++ [bid] }
  let g := match amount with
    | some _ => { g with current_bid := some bid }
    | none => g
  advanceBidding g

/-- `get_scoring_points` — `(win_points, lose_points)` by bid range. -/
def get_scoring_points (bid_amount : Nat) : Nat × Nat :=
  if bid_amount = 304 then (10, 7)
  else if 200 ≤ bid_amount then (6, 5)
  else (5, 3)

/-! ## trump.py -/

/-- `validate_trump_selection`.  A missing player would make
`card not in player.hand` raise; the crash is modelled as an error. -/
def validate_trump_selection (g : GameState) (seat : Nat) (suit : Suit)
    (card : Card) : Bool × String :=
  if g.phase ≠ .TRUMP_SELECTION then (false, "Not in trump selection phase")
  else if g.trumper_seat ≠ some seat then (false, "Only the trumper can select trump")
  else if card.suit ≠ suit then (false, "Trump card must be of the selected trump suit")
  else
    match getPlayerBySeat g.players seat with
    | none => (false, "no player at seat")
    | some p =>
      if card ∉ p.hand then (false, "You don't have that card")
      else (true, "")

/-- `_set_first_player` -/
def setFirstPlayer (g : GameState) : GameState :=
  let ts :=
    match g.current_bid with
    | some b =>
      if b.amount = some 304 then g.trumper_seat
      else some (next_seat g g.dealer_seat)
    | none => some (next_seat g g.dealer_seat)
  { g with turn_seat := ts, lead_seat := ts, trick_number := 1 }

/-- `select_trump`; the event dict is summarized by the next phase.
`hand.remove` raising is `none`. -/
def select_trump (g : GameState) (seat : Nat) (suit : Suit) (card : Card) :
    Option (GameState × GamePhase) :=
  match getPlayerBySeat g.players seat with
  | none => none
  | some p =>
    match removeCard p.hand card with
    | none => none
    | some _ =>
      let g1 : GameState :=
        { g with players := updateHand g.players seat (fun h => h.erase card),
                 trump_suit := some suit, trump_card := some card,
                 trump_revealed := false }
      if g1.mode = 3 then some ({ g1 with phase := .CARD_EXCHANGE }, .CARD_EXCHANGE)
      else some (setFirstPlayer { g1 with phase := .PLAYING }, .PLAYING)

/-- `validate_card_exchange` -/
def validate_card_exchange (g : GameState) (seat : Nat) (cards : List Card) :
    Bool × String :=
  if g.phase ≠ .CARD_EXCHANGE then (false, "Not in card exchange phase")
  else if g.trumper_seat ≠ some seat then (false, "Only the trumper can exchange cards")
  else if cards.length ≠ 2 then (false, "Must exchange exactly 2 cards")
  else
    match getPlayerBySeat g.players seat with
    | none => (false, "no player at seat")
    | some p =>
      if cards.all (fun c => c ∈ p.hand) then (true, "")
      else (false, "You don't have that card")

/-- Sequential `player.hand.remove(card)` over a list; a raise is `none`. -/
def removeCards (hand : List Card) : List Card → Option (List Card)
  | [] => some hand
  | c :: cs =>
    match removeCard hand c with
    | none => none
    | some h => removeCards h cs

/-- `exchange_cards` — swap two hand cards with the whole center pile. -/
def exchange_cards (g : GameState) (seat : Nat) (cards_to_give : List Card) :
    Option GameState :=
  match getPlayerBySeat g.players seat with
  | none => none
  | some p =>
    match removeCards p.hand cards_to_give with
    | none => none
    | some hand1 =>
      -- Pick up center pile cards
      let picked_up := g.center_pile
      let g1 : GameState :=
        { g with players := updateHand g.players seat (fun _ => hand1 ++ picked_up),
                 -- The discarded cards count as opposing-team points at scoring
                 center_pile := cards_to_give, exchange_done := true,
                 phase := .PLAYING }
      some (setFirstPlayer g1)

/-- `skip_exchange` -/
def skip_exchange (g : GameState) (seat : Nat) : Bool × String × GameState :=
  if g.phase ≠ .CARD_EXCHANGE then (false, "Not in card exchange phase", g)
  else if g.trumper_seat ≠ some seat then (false, "Only the trumper can skip exchange", g)
  else
    let g1 : GameState := { g with exchange_done := true, phase := .PLAYING }
    (true, "", setFirstPlayer g1)

/-- `reveal_trump` — the `requesting_seat` argument is unused by the source
and omitted here.  `none` is the crash where `get_player_by_seat` finds no
trumper to take the trump card back. -/
def reveal_trump (g : GameState) : Option (Bool × String × GameState) :=
  if g.trump_revealed then some (false, "Trump is already revealed", g)
  else if g.trump_suit = none then some (false, "Trump has not been selected yet", g)
  else
    let g1 : GameState := { g with trump_revealed := true }
    -- Return trump card to trumper's hand
    match g1.trump_card with
    | none => some (true, "", g1)
    | some c =>
      match g1.trumper_seat with
      | none => none
      | some t =>
        match getPlayerBySeat g1.players t with
        | none => none
        | some _ =>
          some (true, "", { g1 with players := updateHand g1.players t (fun h => h ++ [c]) })

/-! ## tricks.py -/

/-- `get_calling_suit` -/
def get_calling_suit (g : GameState) : Option Suit :=
  match g.current_trick with
  | tc :: _ => some tc.card.suit
  | [] => none

/-- `get_valid_cards`; `none` is the crash on a missing player. -/
def get_valid_cards (g : GameState) (seat : Nat) : Option (List Card) :=
  match getPlayerBySeat g.players seat with
  | none => none
  | some p =>
    let hand := p.hand
    let calling_suit := get_calling_suit g
    if hand = [] then some []
    else
      match calling_suit with
      | none => some hand  -- Leading the trick — can play anything
      | some cs =>
        -- Must follow suit if possible
        let same_suit := hand.filter (fun c => c.suit = cs)
        if same_suit ≠ [] then some same_suit
        else some hand  -- No cards in calling suit — can play anything

/-- `validate_play` -/
def validate_play (g : GameState) (seat : Nat) (card : Card)
    (wants_to_cut : Bool) : Bool × String :=
  if g.phase ≠ .PLAYING then (false, "Not in playing phase")
  else if g.turn_seat ≠ some seat then (false, "Not your turn")
  else
    match getPlayerBySeat g.players seat with
    | none => (false, "no player at seat")
    | some p =>
      if card ∉ p.hand then (false, "You don't have that card")
      else
        match get_valid_cards g seat with
        | none => (false, "no player at seat")
        | some valid =>
          if card ∉ valid then (false, "You must follow suit")
          else
            -- Cutting rules
            match get_calling_suit g with
            | some cs =>
              if card.suit ≠ cs ∧ wants_to_cut ∧ some card.suit = g.trump_suit then
                if some seat = g.trumper_seat then
                  -- Trumper must reveal before cutting
                  if ¬g.trump_revealed then (false, "Trumper must reveal trump before cutting")
                  else (true, "")
                else
                  -- Non-trumper must ask for reveal first (handled at action layer)
                  if ¬g.trump_revealed then (false, "Trump must be revealed before cutting")
                  else (true, "")
              else (true, "")
            | none => (true, "")

structure ResolveResult where
  winner_seat : Nat
  trick_points : Nat
  draws : List (Nat × Card) := []
  game_over : Bool := false
  next_turn : Option Nat := none
  trump_revealed_final : Bool := false
deriving DecidableEq, Repr

structure PlayResult where
  card_played : Card
  seat : Nat
  is_cut : Bool
  trick_won : Bool := false
  winner_seat : Option Nat := none
  trick_points : Nat := 0
  draws : List (Nat × Card) := []
  game_over : Bool := false
  next_turn : Option Nat := none
  trump_revealed_final : Bool := false
deriving DecidableEq, Repr

/-- The loop of `_draw_cards_2p`: each seat draws the front center card,
breaking when the pile is exhausted; a missing player is a crash. -/
def drawLoop (seats : List Nat) (g : GameState) (acc : List (Nat × Card)) :
    Option (GameState × List (Nat × Card)) :=
  match seats with
  | [] => some (g, acc)
  | s :: rest =>
    match g.center_pile with
    | [] => some (g, acc)  -- break
    | c :: cp =>
      match getPlayerBySeat g.players s with
      | none => none
      | some _ =>
        drawLoop rest
          { g with center_pile := cp,
                   players := updateHand g.players s (fun h => h ++ [c]) }
          (acc ++ [(s, c)])

/-- `_draw_cards_2p` — winner draws first, then the other seat. -/
def drawCards2p (g : GameState) (trick_winner_seat : Nat) :
    Option (GameState × List (Nat × Card)) :=
  drawLoop [trick_winner_seat, next_seat g trick_winner_seat] g []

/-- `_resolve_trick`; `none` covers the indexing/lookup crashes. -/
def resolveTrick (g : GameState) : Option (GameState × ResolveResult) :=
  match g.current_trick with
  | [] => none  -- `current_trick[0]` raises
  | tc0 :: rest =>
    let calling_suit := tc0.card.suit
    let winner_tc := rest.foldl
      (fun w tc =>
        if tc.card.beats w.card g.trump_suit g.trump_revealed calling_suit then tc else w)
      tc0
    let winner_seat := winner_tc.seat
    let trick_points := ((tc0 :: rest).map (fun tc => tc.card.points)).sum
    let trick_cards := (tc0 :: rest).map TrickCard.card
    -- Add cards to winner's trick pile
    let g1 : GameState :=
      { g with tricks_won := alistExtend g.tricks_won winner_seat trick_cards,
               current_trick := [], trick_number := g.trick_number + 1 }
    -- 2-player: draw cards from center pile after trick
    let step2 : Option (GameState × List (Nat × Card)) :=
      if g1.mode = 2 ∧ g1.center_pile ≠ [] then drawCards2p g1 winner_seat
      else some (g1, [])
    match step2 with
    | none => none
    | some (g2, draws) =>
      let base : ResolveResult :=
        { winner_seat := winner_seat, trick_points := trick_points, draws := draws }
      -- Check if game is over
      if g2.mode = 2 then
        match g2.players with
        | p0 :: p1 :: _ =>
          match getPlayerBySeat g2.players p0.seat, getPlayerBySeat g2.players p1.seat with
          | some q0, some q1 =>
            if q0.hand = [] ∧ q1.hand = [] then some (g2, { base with game_over := true })
            else
              -- mode = 2, so the 8-trick branch below is skipped
              if g2.players.all (fun p => p.hand.length = 0) then
                some (g2, { base with game_over := true })
              else
                some ({ g2 with turn_seat := some winner_seat, lead_seat := some winner_seat },
                      { base with next_turn := some winner_seat })
          | _, _ => none
        | _ => none  -- `players[0]` / `players[1]` raise
      else
        if 8 < g2.trick_number then
          -- Force reveal trump on last trick if not revealed
          if ¬g2.trump_revealed then
            match reveal_trump g2 with
            | none => none
            | some (_, _, g3) =>
              some (g3, { base with game_over := true, trump_revealed_final := true })
          else some (g2, { base with game_over := true })
        else
          if g2.players.all (fun p => p.hand.length = 0) then
            some (g2, { base with game_over := true })
          else
            some ({ g2 with turn_seat := some winner_seat, lead_seat := some winner_seat },
                  { base with next_turn := some winner_seat })

/-- `play_card` (assumes `validate_play` passed; raises are `none`). -/
def play_card (g : GameState) (seat : Nat) (card : Card) :
    Option (GameState × PlayResult) :=
  match getPlayerBySeat g.players seat with
  | none => none
  | some p =>
    match removeCard p.hand card with
    | none => none  -- `hand.remove(card)` raises
    | some _ =>
      let g1 : GameState :=
        { g with players := updateHand g.players seat (fun h => h.erase card) }
      let calling_suit := get_calling_suit g1
      let is_cut :=
        match calling_suit with
        | some cs =>
          -- If trump not revealed, a trump-suit card does NOT count as a cut
          decide (card.suit ≠ cs) && g1.trump_revealed && decide (some card.suit = g1.trump_suit)
        | none => false
      let g2 : GameState := { g1 with current_trick := g1.current_trick ++ [⟨seat, card⟩] }
      let base : PlayResult := { card_played := card, seat := seat, is_cut := is_cut }
      -- Check if trick is complete
      if g2.current_trick.length = g2.players.length then
        match resolveTrick g2 with
        | none => none
        | some (g3, r) =>
          some (g3, { base with trick_won := true, winner_seat := some r.winner_seat,
                                trick_points := r.trick_points, draws := r.draws,
                                game_over := r.game_over, next_turn := r.next_turn,
                                trump_revealed_final := r.trump_revealed_final })
      else
        -- Advance to next player
        let g3 : GameState := { g2 with turn_seat := some (next_seat g2 seat) }
        some (g3, { base with next_turn := g3.turn_seat })

/-- The card `auto_play` ends up playing, with the two `random.choice`
draws injected as indices `i` (over the legal set) and `j` (over the
non-trump restriction). -/
def auto_pick (g : GameState) (valid : List Card) (i j : Nat) : Card :=
  let card := valid.getD (i % valid.length) default
  -- If trump not revealed and this would be a cut, try to avoid it
  match get_calling_suit g with
  | some cs =>
    if card.suit ≠ cs ∧ ¬g.trump_revealed then
      let non_trump := valid.filter (fun c => some c.suit ≠ g.trump_suit)
      if non_trump ≠ [] then non_trump.getD (j % non_trump.length) default
      else card
    else card
  | none => card

/-- `auto_play`; the inner `none` result is the
`{"error": "No valid cards to play"}` dict (no state change). -/
def auto_play (g : GameState) (seat : Nat) (i j : Nat) :
    Option (GameState × Option PlayResult) :=
  match get_valid_cards g seat with
  | none => none
  | some valid =>
    if valid = [] then some (g, none)
    else
      match play_card g seat (auto_pick g valid i j) with
      | none => none
      | some (g1, r) => some (g1, some r)

structure TeamPoints where
  trumper_points : Nat
  opposing_points : Nat
deriving DecidableEq, Repr

/-- `calculate_team_points` -/
def calculate_team_points (g : GameState) : TeamPoints :=
  let trumper_team := get_trumper_team_seats g
  let pair := g.tricks_won.foldl
    (fun (acc : Nat × Nat) kv =>
      let points := (kv.2.map Card.points).sum
      if kv.1 ∈ trumper_team then (acc.1 + points, acc.2)
      else (acc.1, acc.2 + points))
    (0, 0)
  -- 3-player: center pile discarded cards count for opposing team
  let opposing :=
    if g.mode = 3 ∧ g.exchange_done ∧ g.center_pile ≠ [] then
      pair.2 + (g.center_pile.map Card.points).sum
    else pair.2
  -- Trump card points — if never played, add to trumper's total
  let trumper :=
    match g.trump_card with
    | some c => if ¬g.trump_revealed then pair.1 + c.points else pair.1
    | none => pair.1
  { trumper_points := trumper, opposing_points := opposing }

/-- `check_spoilt_trump` -/
def check_spoilt_trump (g : GameState) : Bool :=
  match g.trump_suit with
  | none => false
  | some ts =>
    let trumper_team := get_trumper_team_seats g
    let n1 := g.tricks_won.foldl
      (fun acc kv =>
        if kv.1 ∈ trumper_team then
          acc + (kv.2.filter (fun c => c.suit = ts)).length
        else acc)
      0
    -- Count trump card itself if not played
    let n2 : Nat :=
      match g.trump_card with
      | some _ => if ¬g.trump_revealed then 1 else 0
      | none => 0
    -- Count any trump cards still in trumper's hand
    let n3 := trumper_team.foldl
      (fun acc s =>
        match getPlayerBySeat g.players s with
        | some p => acc + (p.hand.filter (fun c => c.suit = ts)).length
        | none => acc)
      0
    (n1 + n2 + n3) = 8

/-! ## game.py

Handlers return `(success, state, event)`.  A Python exception escapes the
handler before the dispatcher persists the snapshot, so a raise is modelled
as `(false, g, none)` with `g` the unchanged input state. -/

structure ScoreResult where
  spoilt : Bool := false
  trumper_won : Bool := false
  trumper_points : Nat := 0
  opposing_points : Nat := 0
  bid : Option Nat := none
  points_awarded : Nat := 0
  scores : List (Nat × Nat) := []
deriving DecidableEq, Repr

/-- `_score_game` — score the completed game, update cumulative scores. -/
def scoreGame (g : GameState) : Option (GameState × ScoreResult) :=
  let g1 : GameState := { g with phase := .SCORING }
  -- Check spoilt trump first
  if check_spoilt_trump g1 then
    some (g1, { spoilt := true, trumper_points := 0, opposing_points := 0,
                scores := g1.scores })
  else
    match g1.current_bid with
    | none => none  -- `state.current_bid.amount` raises
    | some b =>
      match b.amount with
      | none => none  -- `trumper_points >= None` raises
      | some bid_amount =>
        let points := calculate_team_points g1
        let wl := get_scoring_points bid_amount
        let trumper_won := bid_amount ≤ points.trumper_points
        let trumper_team := get_trumper_team_seats g1
        let opposing_team := get_opposing_team_seats g1
        let winScores :=
          trumper_team.foldl (fun m s => alistSet m s (alistGetD m s 0 + wl.1)) g1.scores
        let loseScores :=
          opposing_team.foldl (fun m s => alistSet m s (alistGetD m s 0 + wl.2)) g1.scores
        let g2 : GameState :=
          if trumper_won then { g1 with scores := winScores }
          else { g1 with scores := loseScores }
        let g3 : GameState := { g2 with games_played := g2.games_played + 1 }
        some (g3, { trumper_won := trumper_won,
                    trumper_points := points.trumper_points,
                    opposing_points := points.opposing_points,
                    bid := some bid_amount,
                    points_awarded := if trumper_won then wl.1 else wl.2,
                    scores := g3.scores })

/-- `start_game`, with the random dealer choice and the shuffled deck
injected. -/
def start_game (g : GameState) (dealer : Nat) (deck : List Card) :
    Bool × String × GameState :=
  if g.phase ≠ .WAITING then (false, "Game already started", g)
  else if g.players.length ≠ g.mode then (false, "wrong number of players", g)
  else
    let g1 : GameState := { g with dealer_seat := dealer, phase := .DEALING }
    (true, "", start_bidding (dealWith g1 deck))

/-- `handle_bid` -/
def handle_bid (g : GameState) (seat : Nat) (amount : Option Nat) :
    Bool × GameState × Option BidResult :=
  let v := validate_bid g seat amount
  if v.1 then
    let r := place_bid g seat amount
    (true, r.1, some r.2)
  else (false, g, none)

/-- `handle_trump_selection` -/
def handle_trump_selection (g : GameState) (seat : Nat)
    (suit_str card_id : String) : Bool × GameState × Option GamePhase :=
  match Suit.fromString suit_str, Card.fromId card_id with
  | some suit, some card =>
    let v := validate_trump_selection g seat suit card
    if v.1 then
      match select_trump g seat suit card with
      | some (g1, ph) => (true, g1, some ph)
      | none => (false, g, none)
    else (false, g, none)
  | _, _ => (false, g, none)  -- "Invalid suit or card"

/-- `handle_card_exchange` -/
def handle_card_exchange (g : GameState) (seat : Nat)
    (card_ids : List String) : Bool × GameState :=
  match card_ids.mapM Card.fromId with
  | none => (false, g)  -- "Invalid card"
  | some cards =>
    let v := validate_card_exchange g seat cards
    if v.1 then
      match exchange_cards g seat cards with
      | some g1 => (true, g1)
      | none => (false, g)
    else (false, g)

/-- `handle_skip_exchange` -/
def handle_skip_exchange (g : GameState) (seat : Nat) : Bool × GameState :=
  let r := skip_exchange g seat
  (r.1, r.2.2)

/-- `handle_play_card` -/
def handle_play_card (g : GameState) (seat : Nat) (card_id : String) :
    Bool × GameState × Option PlayResult :=
  match Card.fromId card_id with
  | none => (false, g, none)  -- "Invalid card"
  | some card =>
    -- Determine if this is a cut attempt
    let calling_suit := get_calling_suit g
    let wants_to_cut : Bool :=
      match calling_suit with
      | some cs =>
        decide (card.suit ≠ cs) && decide (some card.suit = g.trump_suit) &&
          g.trump_revealed
      | none => false
    let v := validate_play g seat card wants_to_cut
    if v.1 then
      match play_card g seat card with
      | none => (false, g, none)
      | some (g1, r) =>
        -- Check if game is over
        if r.game_over then
          match scoreGame g1 with
          | none => (false, g, none)
          | some (g2, _) => (true, g2, some r)
        else (true, g1, some r)
    else (false, g, none)

/-- `handle_ask_trump` -/
def handle_ask_trump (g : GameState) (seat : Nat) : Bool × GameState :=
  if g.trump_revealed then (false, g)  -- "Trump is already revealed"
  else if some seat = g.trumper_seat then (false, g)  -- "use reveal_trump instead"
  else if g.phase ≠ .PLAYING then (false, g)  -- "Not in playing phase"
  else
    match get_calling_suit g with
    | none => (false, g)  -- "No trick in progress to cut"
    | some calling_suit =>
      match getPlayerBySeat g.players seat with
      | none => (false, g)  -- `player.hand` raises
      | some p =>
        if p.hand.any (fun c => c.suit = calling_suit) then
          (false, g)  -- "You have cards in the calling suit"
        else
          match reveal_trump g with
          | none => (false, g)
          | some (succ, _, g1) => if succ then (true, g1) else (false, g1)

/-- `handle_reveal_trump` -/
def handle_reveal_trump (g : GameState) (seat : Nat) : Bool × GameState :=
  if g.trumper_seat ≠ some seat then (false, g)  -- "Only the trumper can reveal trump"
  else if g.phase ≠ .PLAYING then (false, g)  -- "Not in playing phase"
  else
    match reveal_trump g with
    | none => (false, g)
    | some (succ, _, g1) => if succ then (true, g1) else (false, g1)

/-- `handle_timeout` — auto-play a random valid card (choices injected). -/
def handle_timeout (g : GameState) (seat : Nat) (i j : Nat) :
    Bool × GameState × Option PlayResult :=
  if g.turn_seat ≠ some seat then (false, g, none)  -- "Not this player's turn"
  else
    match auto_play g seat i j with
    | none => (false, g, none)
    | some (g1, none) => (true, g1, none)  -- auto_play returned its error dict
    | some (g1, some r) =>
      if r.game_over then
        match scoreGame g1 with
        | none => (false, g, none)
        | some (g2, _) => (true, g2, some r)
      else (true, g1, some r)

/-- `next_game` — reset for the next game, rotating the dealer; the new
shuffled deck is injected. -/
def next_game (g : GameState) (deck : List Card) : Bool × String × GameState :=
  if g.phase ≠ .SCORING then (false, "Current game not finished", g)
  else
    -- Rotate dealer clockwise
    let g1 : GameState := { g with dealer_seat := next_seat g g.dealer_seat }
    -- Reset game state
    let g2 : GameState :=
      { g1 with bids := [], current_bid := none, bid_turn_seat := none,
                trumper_seat := none, trump_suit := none, trump_card := none,
                trump_revealed := false, exchange_done := false,
                current_trick := [], tricks_won := [],
                turn_seat := none, turn_deadline := none, trick_number := 0,
                lead_seat := none, center_pile := [] }
    -- Deal and start bidding
    let g3 := dealWith { g2 with phase := .DEALING } deck
    (true, "", start_bidding g3)

/-- `team_tricks_points[key] = v` on the string-keyed view dict. -/
def salistSet (m : List (String × Nat)) (k : String) (v : Nat) :
    List (String × Nat) :=
  match m with
  | [] => [(k, v)]
  | (k', v') :: rest =>
    if k' = k then (k, v) :: rest else (k', v') :: salistSet rest k v

/-- `team_tricks_points.get(key, 0)` -/
def salistGetD (m : List (String × Nat)) (k : String) (d : Nat) : Nat :=
  match m with
  | [] => d
  | (k', v) :: rest => if k' = k then v else salistGetD rest k d

/-- The view dict returned by `get_player_view`; for keys the source adds
conditionally, `none` models the key being absent. -/
structure PlayerView where
  game_code : String
  mode : Nat
  phase : String
  players : List (String × String × Nat)
  dealer_seat : Nat
  your_seat : Nat
  your_hand : List String
  bids : List Bid
  current_bid : Option Bid
  trumper_seat : Option Nat
  trump_revealed : Bool
  current_trick : List TrickCard
  turn_seat : Option Nat
  trick_number : Nat
  scores : List (Nat × Nat)
  games_played : Nat
  trump_suit : Option (Option String) := none
  trump_card : Option (Option String) := none
  valid_cards : Option (List String) := none
  bid_turn_seat : Option (Option Nat) := none
  team_tricks_points : List (String × Nat) := []
  center_pile_count : Option Nat := none
deriving DecidableEq, Repr

/-- `get_player_view` -/
def get_player_view (g : GameState) (seat : Nat) : PlayerView :=
  let player := getPlayerBySeat g.players seat
  let base : PlayerView :=
    { game_code := g.game_code, mode := g.mode, phase := g.phase.value,
      players := g.players.map (fun p => (p.player_id, p.name, p.seat)),
      dealer_seat := g.dealer_seat, your_seat := seat,
      your_hand := match player with
        | some p => p.hand.map Card.id
        | none => [],
      bids := g.bids, current_bid := g.current_bid,
      trumper_seat := g.trumper_seat, trump_revealed := g.trump_revealed,
      current_trick := g.current_trick, turn_seat := g.turn_seat,
      trick_number := g.trick_number, scores := g.scores,
      games_played := g.games_played }
  -- Only show trump info if revealed or player is trumper
  let v1 :=
    if g.trump_revealed then
      { base with trump_suit := some (g.trump_suit.map Suit.value),
                  trump_card := some (g.trump_card.map Card.id) }
    else if g.trumper_seat = some seat then
      { base with trump_suit := some (g.trump_suit.map Suit.value),
                  trump_card := some (g.trump_card.map Card.id) }
    else base
  -- Show valid cards if it's player's turn
  let v2 :=
    if g.turn_seat = some seat ∧ g.phase = .PLAYING then
      { v1 with valid_cards := some (((get_valid_cards g seat).getD []).map Card.id) }
    else v1
  -- Bidding turn indicator
  let v3 :=
    if g.phase = .BIDDING then { v2 with bid_turn_seat := some g.bid_turn_seat }
    else v2
  -- Points won by each team (visible to all)
  let trumper_team := get_trumper_team_seats g
  let ttp := g.tricks_won.foldl
    (fun m kv =>
      let team_key := if kv.1 ∈ trumper_team then "trumper" else "opposing"
      let current := salistGetD m team_key 0
      salistSet m team_key (current + (kv.2.map Card.points).sum))
    []
  let v4 := { v3 with team_tricks_points := ttp }
  -- Center pile count (not contents) for 2/3 player
  if g.mode = 2 ∨ g.mode = 3 then
    { v4 with center_pile_count := some g.center_pile.length }
  else v4

/-- The per-seat game actions routed by the websocket `_on_message`
dispatcher. -/
inductive Action where
  | bid (amount : Option Nat)
  | selectTrump (suit card : String)
  | exchangeCards (cards : List String)
  | skipExchange
  | playCard (card : String)
  | askTrump
  | revealTrump
deriving DecidableEq, Repr

/-- One action dispatched for a seat: `(success, resulting state)`; on
failure the dispatcher does not save, so the resulting state is what the
handler left behind. -/
def dispatch (g : GameState) (seat : Nat) (a : Action) : Bool × GameState :=
  match a with
  | .bid amount => let r := handle_bid g seat amount; (r.1, r.2.1)
  | .selectTrump s c => let r := handle_trump_selection g seat s c; (r.1, r.2.1)
  | .exchangeCards cs => handle_card_exchange g seat cs
  | .skipExchange => handle_skip_exchange g seat
  | .playCard c => let r := handle_play_card g seat c; (r.1, r.2.1)
  | .askTrump => handle_ask_trump g seat
  | .revealTrump => handle_reveal_trump g seat

/-! ## _serialization.py

Dict keys are stringified with Python `str` and read back with `int`;
`natRepr`/`natParse` model that pair on nonnegative integers. -/

/-- Decimal digits of `n`, least significant first; `fuel`-based so the
kernel evaluates it (`fuel = n` always suffices). -/
def natDigitsAux : Nat → Nat → List Nat
  | 0, _ => []
  | _ + 1, 0 => []
  | fuel + 1, n + 1 => ((n + 1) % 10) :: natDigitsAux fuel ((n + 1) / 10)

/-- Decimal digits of `n`, least significant first (empty for 0). -/
def natDigits (n : Nat) : List Nat := natDigitsAux n n

/-- Python `str` on a nonnegative int: standard decimal notation. -/
def natRepr (n : Nat) : String :=
  if n = 0 then "0" else ⟨((natDigits n).map Nat.digitChar).reverse⟩

/-- A decimal digit character's value. -/
def digitToNat (c : Char) : Option Nat :=
  if '0' ≤ c ∧ c ≤ '9' then some (c.toNat - Char.toNat '0') else none

/-- Python `int` on a decimal-digit string (the shapes `str` produces);
anything else raises, i.e. `none`. -/
def natParse (s : String) : Option Nat :=
  if s.data.isEmpty then none
  else (s.data.mapM digitToNat).map (fun ds => Nat.ofDigits 10 ds.reverse)

structure SerializedPlayer where
  player_id : String
  name : String
  seat : Nat
  connection_id : Option String
  hand : List String
deriving DecidableEq, Repr

/-- The DynamoDB item produced by `serialize_game_state` (scalar fields kept
at their Python types; numbers stay numbers through the store). -/
structure SerializedGame where
  game_code : String
  mode : Nat
  phase : String
  players : List SerializedPlayer
  dealer_seat : Nat
  deck : List String
  center_pile : List String
  bids : List Bid
  current_bid : Option Bid
  bid_turn_seat : Option Nat
  trumper_seat : Option Nat
  trump_suit : Option String
  trump_card : Option String
  trump_revealed : Bool
  exchange_done : Bool
  current_trick : List (Nat × String)
  tricks_won : List (String × List String)
  turn_seat : Option Nat
  turn_deadline : Option String
  trick_number : Nat
  lead_seat : Option Nat
  scores : List (String × Nat)
  games_played : Nat
  created_at : Option String
deriving DecidableEq, Repr

/-- `_serialize_player` -/
def serializePlayer (p : Player) : SerializedPlayer :=
  { player_id := p.player_id, name := p.name, seat := p.seat,
    connection_id := p.connection_id, hand := p.hand.map Card.id }

/-- `serialize_game_state` -/
def serialize_game_state (g : GameState) : SerializedGame :=
  { game_code := g.game_code, mode := g.mode, phase := g.phase.value,
    players := g.players.map serializePlayer,
    dealer_seat := g.dealer_seat,
    deck := g.deck.map Card.id,
    center_pile := g.center_pile.map Card.id,
    bids := g.bids,
    current_bid := g.current_bid,
    bid_turn_seat := g.bid_turn_seat,
    trumper_seat := g.trumper_seat,
    trump_suit := g.trump_suit.map Suit.value,
    trump_card := g.trump_card.map Card.id,
    trump_revealed := g.trump_revealed,
    exchange_done := g.exchange_done,
    current_trick := g.current_trick.map (fun tc => (tc.seat, tc.card.id)),
    tricks_won := g.tricks_won.map (fun kv => (natRepr kv.1, kv.2.map Card.id)),
    turn_seat := g.turn_seat,
    turn_deadline := g.turn_deadline,
    trick_number := g.trick_number,
    lead_seat := g.lead_seat,
    scores := g.scores.map (fun kv => (natRepr kv.1, kv.2)),
    games_played := g.games_played,
    created_at := g.created_at }

/-- Player reconstruction inside `deserialize_game_state`. -/
def deserializePlayer (p : SerializedPlayer) : Option Player := do
  let hand ← p.hand.mapM Card.fromId
  pure { player_id := p.player_id, name := p.name, seat := p.seat,
         connection_id := p.connection_id, hand := hand }

/-- `deserialize_game_state`; a raise while parsing is `none`.  The `ttl`
attribute of the stored item is added outside the codec and never read
back, so the field keeps its default. -/
def deserialize_game_state (item : SerializedGame) : Option GameState := do
  let phase ← GamePhase.fromString item.phase
  let players ← item.players.mapM deserializePlayer
  let deck ← item.deck.mapM Card.fromId
  let center_pile ← item.center_pile.mapM Card.fromId
  let trump_suit : Option Suit ←
    match item.trump_suit with
    | none => pure none
    | some s => do
      let x ← Suit.fromString s
      pure (some x)
  let trump_card : Option Card ←
    match item.trump_card with
    | none => pure none
    | some s => do
      let x ← Card.fromId s
      pure (some x)
  let current_trick ← item.current_trick.mapM (fun tc => do
    let c ← Card.fromId tc.2
    pure (TrickCard.mk tc.1 c))
  let tricks_won ← item.tricks_won.mapM (fun kv => do
    let k ← natParse kv.1
    let cs ← kv.2.mapM Card.fromId
    pure (k, cs))
  let scores ← item.scores.mapM (fun kv => do
    let k ← natParse kv.1
    pure (k, kv.2))
  pure
    { game_code := item.game_code, mode := item.mode, phase := phase,
      players := players, dealer_seat := item.dealer_seat,
      deck := deck, center_pile := center_pile,
      bids := item.bids, current_bid := item.current_bid,
      bid_turn_seat := item.bid_turn_seat,
      trumper_seat := item.trumper_seat,
      trump_suit := trump_suit, trump_card := trump_card,
      trump_revealed := item.trump_revealed,
      exchange_done := item.exchange_done,
      current_trick := current_trick, tricks_won := tricks_won,
      turn_seat := item.turn_seat, turn_deadline := item.turn_deadline,
      trick_number := item.trick_number, lead_seat := item.lead_seat,
      scores := scores, games_played := item.games_played,
      created_at := item.created_at }

/-! ## Card-conservation model and reachable states -/

/-- All cards currently in player hands, as a multiset. -/
def handsM (ps : List Player) : Multiset Card :=
  (ps.map (fun p => (p.hand : Multiset Card))).sum

/-- All cards in the `tricks_won` piles, as a multiset. -/
def tricksM (tw : List (Nat × List Card)) : Multiset Card :=
  (tw.map (fun kv => (kv.2 : Multiset Card))).sum

/-- The engine-held trump card — counted only while unrevealed (on reveal
it returns to the trumper's hand). -/
def trumpSlotM (g : GameState) : Multiset Card :=
  if g.trump_revealed then 0
  else
    match g.trump_card with
    | some c => {c}
    | none => 0

/-- The §3 conservation multiset: hands ∪ center pile ∪ tricks won ∪
current trick ∪ unrevealed trump card. -/
def conservedCards (g : GameState) : Multiset Card :=
  handsM g.players + (g.center_pile : Multiset Card) + tricksM g.tricks_won
    + ((g.current_trick.map TrickCard.card : List Card) : Multiset Card)
    + trumpSlotM g

/-- The initial 32-card deck as a multiset. -/
def fullDeckM : Multiset Card := (create_deck : Multiset Card)

/-- Total card points of a multiset of cards. -/
def totalPoints (s : Multiset Card) : Nat := (s.map Card.points).sum

/-- Game states reachable through successful engine operations, from the
deal onward.  The base case is `start_game` on a complete `WAITING` lobby
(as built by `create_game`/`join_game`: empty hands and piles); the rng
capability is injected, so the shuffled deck is any permutation of
`create_deck` and the dealer any seated player's seat. -/
inductive Reachable : GameState → Prop where
  | start (g : GameState) (dealer : Nat) (deck : List Card) (g' : GameState)
      (hmode : g.mode = 2 ∨ g.mode = 3 ∨ g.mode = 4)
      (htrick : g.current_trick = [])
      (htw : g.tricks_won = [])
      (htc : g.trump_card = none)
      (hdeck : (deck : Multiset Card) = fullDeckM)
      (hok : start_game g dealer deck = (true, "", g')) :
      Reachable g'
  | bid (g : GameState) (seat : Nat) (amount : Option Nat) (g' : GameState)
      (r : BidResult) (hg : Reachable g)
      (hok : handle_bid g seat amount = (true, g', some r)) :
      Reachable g'
  | selectTrump (g : GameState) (seat : Nat) (suit_str card_id : String)
      (g' : GameState) (ph : GamePhase) (hg : Reachable g)
      (hok : handle_trump_selection g seat suit_str card_id = (true, g', some ph)) :
      Reachable g'
  | exchange (g : GameState) (seat : Nat) (card_ids : List String)
      (g' : GameState) (hg : Reachable g)
      (hok : handle_card_exchange g seat card_ids = (true, g')) :
      Reachable g'
  | skip (g : GameState) (seat : Nat) (g' : GameState) (hg : Reachable g)
      (hok : handle_skip_exchange g seat = (true, g')) :
      Reachable g'
  | play (g : GameState) (seat : Nat) (card_id : String) (g' : GameState)
      (r : Option PlayResult) (hg : Reachable g)
      (hok : handle_play_card g seat card_id = (true, g', r)) :
      Reachable g'
  | ask (g : GameState) (seat : Nat) (g' : GameState) (hg : Reachable g)
      (hok : handle_ask_trump g seat = (true, g')) :
      Reachable g'
  | reveal (g : GameState) (seat : Nat) (g' : GameState) (hg : Reachable g)
      (hok : handle_reveal_trump g seat = (true, g')) :
      Reachable g'
  | timeout (g : GameState) (seat i j : Nat) (g' : GameState)
      (r : Option PlayResult) (hg : Reachable g)
      (hok : handle_timeout g seat i j = (true, g', r)) :
      Reachable g'
  | nextGame (g : GameState) (deck : List Card) (g' : GameState)
      (hg : Reachable g)
      (hdeck : (deck : Multiset Card) = fullDeckM)
      (hok : next_game g deck = (true, "", g')) :
      Reachable g'

/-- The inductive invariant carried through `Reachable`: card conservation
plus the frame facts the step proofs need. -/
def Inv (g : GameState) : Prop :=
  conservedCards g = fullDeckM ∧
  (g.mode = 2 ∨ g.mode = 3 ∨ g.mode = 4) ∧
  g.players.length = g.mode ∧
  ((g.phase = GamePhase.BIDDING ∨ g.phase = GamePhase.TRUMP_SELECTION) →
    g.trump_card = none)

/-! ## Concrete fixture states -/

/-- A lobby of `mode` players seated 0,…,mode−1 with empty hands. -/
def mkPlayers (mode : Nat) : List Player :=
  (List.range mode).map
    (fun i => { player_id := natRepr i, name := natRepr i, seat := i })

/-- A complete `WAITING` lobby for the given mode and dealer. -/
def lobby (mode dealer : Nat) : GameState :=
  { game_code := "GAME01", mode := mode, players := mkPlayers mode,
    dealer_seat := dealer,
    scores := (List.range mode).map (fun i => (i, 0)) }

/-- A bidding phase just opened on a `lobby` (hands are irrelevant to
bidding, so the deal is elided). -/
def biddingStart (mode dealer : Nat) : GameState :=
  start_bidding (lobby mode dealer)

/-- Every seat passing in turn, `n` times: each step is `handle_bid` with
a pass from the seat the engine is asking. -/
def passAll (g : GameState) : Nat → GameState
  | 0 => g
  | n + 1 => passAll (handle_bid g (g.bid_turn_seat.getD 0) none).2.1 n

/-- A mode-4 `PLAYING` state: hearts is the concealed trump, seat 1 led
`J_spades`, seat 2 is void in spades and holds the trump jack. -/
def cutState : GameState :=
  { game_code := "CUT001", mode := 4, phase := .PLAYING,
    players :=
      [ { player_id := "p0", name := "P0", seat := 0,
          hand := [⟨.spades, .ace⟩] },
        { player_id := "p1", name := "P1", seat := 1,
          hand := [⟨.clubs, .seven⟩] },
        { player_id := "p2", name := "P2", seat := 2,
          hand := [⟨.hearts, .jack⟩, ⟨.clubs, .ace⟩] },
        { player_id := "p3", name := "P3", seat := 3,
          hand := [⟨.spades, .nine⟩] } ],
    dealer_seat := 0, trumper_seat := some 0, trump_suit := some .hearts,
    trump_card := some ⟨.hearts, .seven⟩, trump_revealed := false,
    current_bid := some ⟨0, some 160⟩,
    current_trick := [⟨1, ⟨.spades, .jack⟩⟩],
    turn_seat := some 2, lead_seat := some 1, trick_number := 1,
    scores := [(0, 0), (1, 0), (2, 0), (3, 0)] }

/-- A finished mode-4 game in which the trumper team (seats 0 and 2) took
all eight hearts, hearts being trump: a spoilt game about to be scored. -/
def spoiltState : GameState :=
  { game_code := "SPOIL1", mode := 4, phase := .PLAYING,
    players :=
      [ { player_id := "p0", name := "P0", seat := 0 },
        { player_id := "p1", name := "P1", seat := 1 },
        { player_id := "p2", name := "P2", seat := 2 },
        { player_id := "p3", name := "P3", seat := 3 } ],
    dealer_seat := 0, trumper_seat := some 0, trump_suit := some .hearts,
    trump_card := none, trump_revealed := true,
    current_bid := some ⟨0, some 160⟩,
    tricks_won :=
      [ (0, [⟨.hearts, .seven⟩, ⟨.hearts, .eight⟩, ⟨.hearts, .queen⟩,
             ⟨.hearts, .king⟩]),
        (2, [⟨.hearts, .ten⟩, ⟨.hearts, .ace⟩, ⟨.hearts, .nine⟩,
             ⟨.hearts, .jack⟩]) ],
    trick_number := 9,
    scores := [(0, 5), (1, 3), (2, 5), (3, 3)] }

/-- A small game state exercising every serialized field. -/
def serState : GameState :=
  { game_code := "SER001", mode := 3, phase := .PLAYING,
    players :=
      [ { player_id := "a", name := "A", seat := 0,
          connection_id := some "c0", hand := [⟨.hearts, .ten⟩] },
        { player_id := "b", name := "B", seat := 1,
          hand := [⟨.clubs, .jack⟩, ⟨.spades, .seven⟩] },
        { player_id := "c", name := "C", seat := 2, hand := [] } ],
    dealer_seat := 2, deck := [], center_pile := [⟨.diamonds, .nine⟩],
    bids := [⟨0, none⟩, ⟨1, some 150⟩], current_bid := some ⟨1, some 150⟩,
    bid_turn_seat := none, trumper_seat := some 1,
    trump_suit := some .clubs, trump_card := some ⟨.clubs, .nine⟩,
    trump_revealed := false, exchange_done := true,
    current_trick := [⟨2, ⟨.spades, .ace⟩⟩],
    tricks_won := [(1, [⟨.hearts, .seven⟩, ⟨.diamonds, .jack⟩]), (10, [])],
    turn_seat := some 0, turn_deadline := some "2026-01-01T00:00:00",
    trick_number := 3, lead_seat := some 2,
    scores := [(0, 5), (1, 0), (2, 12)], games_played := 2,
    created_at := some "2026-01-01T00:00:00" }

/-- A mode-2 `SCORING` state used to exercise `next_game`. -/
def scoringState : GameState :=
  { game_code := "NEXT01", mode := 2, phase := .SCORING,
    players :=
      [ { player_id := "x", name := "X", seat := 0 },
        { player_id := "y", name := "Y", seat := 1 } ],
    dealer_seat := 1, trumper_seat := some 0, trump_suit := some .spades,
    trump_card := none, trump_revealed := true, exchange_done := false,
    current_bid := some ⟨0, some 150⟩, bids := [⟨1, none⟩, ⟨0, some 150⟩],
    tricks_won := [(0, [⟨.spades, .jack⟩])],
    trick_number := 9, lead_seat := some 0,
    scores := [(0, 10), (1, 6)], games_played := 3 }

/-! ## Possession of trump cards at game end (for the spoilt-trump rule) -/

/-- The trump-suit cards inside the trumper-team's `tricks_won` piles,
gathered in iteration order (mirrors the counting loop of
`check_spoilt_trump`). -/
def teamTrickTrumps (tw : List (Nat × List Card)) (team : List Nat)
    (ts : Suit) : List Card :=
  match tw with
  | [] => []
  | kv :: rest =>
    (if kv.1 ∈ team then kv.2.filter (fun c => c.suit = ts) else []) ++
      teamTrickTrumps rest team ts

/-- The trump-suit cards still in trumper-team hands (mirrors the hand loop
of `check_spoilt_trump`). -/
def teamHandTrumps (g : GameState) (team : List Nat) (ts : Suit) :
    List Card :=
  match team with
  | [] => []
  | s :: rest =>
    (match getPlayerBySeat g.players s with
     | some p => p.hand.filter (fun c => c.suit = ts)
     | none => []) ++ teamHandTrumps g rest ts

/-- The trumper-team's end-of-game possession of trump-suit cards: its
`tricks_won`, an unrevealed `trump_card`, and trump cards in team hands. -/
def trumperTrumpHolding (g : GameState) (ts : Suit) : Multiset Card :=
  (teamTrickTrumps g.tricks_won (get_trumper_team_seats g) ts : Multiset Card)
    + Multiset.filter (fun c => c.suit = ts) (trumpSlotM g)
    + (teamHandTrumps g (get_trumper_team_seats g) ts : Multiset Card)

/-- All eight cards of a suit. -/
def allTrumpCards (ts : Suit) : Multiset Card :=
  ((rankList.map (fun r => Card.mk ts r) : List Card) : Multiset Card)

/-! # Theorems -/

/-- `reveal_trump` mutates nothing when it reports failure. -/
theorem reveal_trump_error (g : GameState) (msg : String) (g' : GameState)
    (h : reveal_trump g = some (false, msg, g')) : g' = g := by
  unfold reveal_trump at h
  by_cases h1 : g.trump_revealed
  · simp [h1] at h
    exact h.2.symm
  · by_cases h2 : g.trump_suit = none
    · simp [h1, h2] at h
      exact h.2.symm
    · simp [h1, h2] at h
      rcases h3 : g.trump_card with _ | c
      · simp [h3] at h
      · simp [h3] at h
        rcases h4 : g.trumper_seat with _ | t
        · simp [h4] at h
        · simp [h4] at h
          rcases h5 : getPlayerBySeat g.players t with _ | p
          · simp [h5] at h
          · simp [h5] at h

/-- C7: for every state and seat, `get_player_view` includes the
`trump_suit` and `trump_card` keys iff trump is revealed or the viewer is
the trumper; in particular a non-trumper's view while trump is concealed
contains neither. -/
theorem view_trump_hiding (g : GameState) (s : Nat) :
    ((get_player_view g s).trump_suit ≠ none ↔
      (g.trump_revealed = true ∨ g.trumper_seat = some s)) ∧
    ((get_player_view g s).trump_card ≠ none ↔
      (g.trump_revealed = true ∨ g.trumper_seat = some s)) := by
  unfold get_player_view
  by_cases hr : g.trump_revealed = true <;>
    by_cases ht : g.trumper_seat = some s <;>
      simp [hr, ht] <;> (repeat' split) <;> simp

/-- A failing `handle_bid` leaves the state unchanged. -/
theorem handle_bid_error (g : GameState) (seat : Nat) (amount : Option Nat)
    (g' : GameState) (r : Option BidResult)
    (h : handle_bid g seat amount = (false, g', r)) : g' = g := by
  unfold handle_bid at h
  dsimp only at h
  split at h <;> simp_all

/-- A failing `handle_trump_selection` leaves the state unchanged. -/
theorem handle_trump_selection_error (g : GameState) (seat : Nat)
    (ss cid : String) (g' : GameState) (r : Option GamePhase)
    (h : handle_trump_selection g seat ss cid = (false, g', r)) : g' = g := by
  unfold handle_trump_selection at h
  dsimp only at h
  split at h
  · split at h
    · split at h <;> simp_all
    · simp_all
  · simp_all

/-- A failing `handle_card_exchange` leaves the state unchanged. -/
theorem handle_card_exchange_error (g : GameState) (seat : Nat)
    (cids : List String) (g' : GameState)
    (h : handle_card_exchange g seat cids = (false, g')) : g' = g := by
  unfold handle_card_exchange at h
  dsimp only at h
  split at h
  · simp_all
  · split at h
    · split at h <;> simp_all
    · simp_all

/-- A failing `handle_skip_exchange` leaves the state unchanged. -/
theorem handle_skip_exchange_error (g : GameState) (seat : Nat)
    (g' : GameState) (h : handle_skip_exchange g seat = (false, g')) :
    g' = g := by
  unfold handle_skip_exchange skip_exchange at h
  dsimp only at h
  split at h
  · simp_all
  · split at h <;> simp_all

/-- A failing `handle_play_card` leaves the state unchanged. -/
theorem handle_play_card_error (g : GameState) (seat : Nat) (cid : String)
    (g' : GameState) (r : Option PlayResult)
    (h : handle_play_card g seat cid = (false, g', r)) : g' = g := by
  unfold handle_play_card at h
  dsimp only at h
  split at h
  · simp_all
  · split at h
    · split at h
      · simp_all
      · split at h
        · split at h <;> simp_all
        · simp_all
    · simp_all

/-- A failing `handle_ask_trump` leaves the state unchanged. -/
theorem handle_ask_trump_error (g : GameState) (seat : Nat) (g' : GameState)
    (h : handle_ask_trump g seat = (false, g')) : g' = g := by
  unfold handle_ask_trump at h
  split at h
  · simp_all
  · split at h
    · simp_all
    · split at h
      · simp_all
      · split at h
        · simp_all
        · split at h
          · simp_all
          · split at h
            · simp_all
            · split at h
              · simp_all
              · rename_i succ msg g1 hrev
                split at h
                · simp_all
                · simp only [Prod.mk.injEq] at h
                  rename_i hsucc
                  have hs : succ = false := by simpa using hsucc
                  subst hs
                  rw [← h.2]
                  exact reveal_trump_error g msg g1 hrev

/-- A failing `handle_reveal_trump` leaves the state unchanged. -/
theorem handle_reveal_trump_error (g : GameState) (seat : Nat)
    (g' : GameState) (h : handle_reveal_trump g seat = (false, g')) :
    g' = g := by
  unfold handle_reveal_trump at h
  split at h
  · simp_all
  · split at h
    · simp_all
    · split at h
      · simp_all
      · rename_i succ msg g1 hrev
        split at h
        · simp_all
        · simp only [Prod.mk.injEq] at h
          rename_i hsucc
          have hs : succ = false := by simpa using hsucc
          subst hs
          rw [← h.2]
          exact reveal_trump_error g msg g1 hrev

/-- C5: whenever a dispatched action handler reports failure — bad input,
phase, permission, or rule violation (Python exceptions abort before the
snapshot write) — the resulting game state is exactly the input state. -/
theorem dispatch_error_unchanged (g : GameState) (seat : Nat) (a : Action)
    (h : (dispatch g seat a).1 = false) : (dispatch g seat a).2 = g := by
  cases a with
  | bid amount =>
    rcases hd : handle_bid g seat amount with ⟨ok, g', r⟩
    simp only [dispatch, hd] at h ⊢
    subst h
    exact handle_bid_error g seat amount g' r hd
  | selectTrump suit card =>
    rcases hd : handle_trump_selection g seat suit card with ⟨ok, g', r⟩
    simp only [dispatch, hd] at h ⊢
    subst h
    exact handle_trump_selection_error g seat suit card g' r hd
  | exchangeCards cards =>
    rcases hd : handle_card_exchange g seat cards with ⟨ok, g'⟩
    simp only [dispatch, hd] at h ⊢
    subst h
    exact handle_card_exchange_error g seat cards g' hd
  | skipExchange =>
    rcases hd : handle_skip_exchange g seat with ⟨ok, g'⟩
    simp only [dispatch, hd] at h ⊢
    subst h
    exact handle_skip_exchange_error g seat g' hd
  | playCard card =>
    rcases hd : handle_play_card g seat card with ⟨ok, g', r⟩
    simp only [dispatch, hd] at h ⊢
    subst h
    exact handle_play_card_error g seat card g' r hd
  | askTrump =>
    rcases hd : handle_ask_trump g seat with ⟨ok, g'⟩
    simp only [dispatch, hd] at h ⊢
    subst h
    exact handle_ask_trump_error g seat g' hd
  | revealTrump =>
    rcases hd : handle_reveal_trump g seat with ⟨ok, g'⟩
    simp only [dispatch, hd] at h ⊢
    subst h
    exact handle_reveal_trump_error g seat g' hd

/-- C5 witness: a bid attempted in the `WAITING` phase fails and leaves
the lobby untouched. -/
theorem dispatch_error_unchanged_witness :
    (dispatch (lobby 4 0) 1 (Action.bid (some 150))).1 = false ∧
    (dispatch (lobby 4 0) 1 (Action.bid (some 150))).2 = lobby 4 0 :=
  ⟨by decide, dispatch_error_unchanged (lobby 4 0) 1 (Action.bid (some 150)) (by decide)⟩

/-- C6: if every seated player passes during bidding (no non-pass bid is
ever placed), bidding concludes with a forced bid of 150 appended for the
dealer, the dealer becomes trumper, and the phase moves to
`TRUMP_SELECTION` — for every mode and dealer seat. -/
theorem all_pass_forces_dealer_bid (mode dealer : Nat)
    (hm : mode = 2 ∨ mode = 3 ∨ mode = 4) (hd : dealer < mode) :
    (passAll (biddingStart mode dealer) mode).phase = GamePhase.TRUMP_SELECTION ∧
    (passAll (biddingStart mode dealer) mode).trumper_seat = some dealer ∧
    (passAll (biddingStart mode dealer) mode).current_bid = some ⟨dealer, some 150⟩ ∧
    (passAll (biddingStart mode dealer) mode).bids.getLast? = some ⟨dealer, some 150⟩ := by
  rcases hm with rfl | rfl | rfl <;> interval_cases dealer <;> decide

/-- C6 witness: the spec's S1 scenario — mode 4, dealer seat 0, all four
seats pass. -/
theorem all_pass_forces_dealer_bid_witness :
    (4 = 2 ∨ 4 = 3 ∨ 4 = 4) ∧ 0 < 4 ∧
    ((passAll (biddingStart 4 0) 4).phase = GamePhase.TRUMP_SELECTION ∧
     (passAll (biddingStart 4 0) 4).trumper_seat = some 0 ∧
     (passAll (biddingStart 4 0) 4).current_bid = some ⟨0, some 150⟩ ∧
     (passAll (biddingStart 4 0) 4).bids.getLast? = some ⟨0, some 150⟩) :=
  ⟨by decide, by decide, all_pass_forces_dealer_bid 4 0 (by decide) (by decide)⟩

/-! ## Helper lemmas about `updateHand` and friends -/

theorem updateHand_length (ps : List Player) (s : Nat)
    (f : List Card → List Card) : (updateHand ps s f).length = ps.length := by
  induction ps with
  | nil => rfl
  | cons p rest ih =>
    unfold updateHand
    split <;> simp [ih]

theorem updateHand_seats (ps : List Player) (s : Nat)
    (f : List Card → List Card) :
    (updateHand ps s f).map Player.seat = ps.map Player.seat := by
  induction ps with
  | nil => rfl
  | cons p rest ih =>
    unfold updateHand
    split <;> simp [ih]

theorem getPlayerBySeat_updateHand (ps : List Player) (s : Nat)
    (f : List Card → List Card) :
    getPlayerBySeat (updateHand ps s f) s =
      (getPlayerBySeat ps s).map (fun p => { p with hand := f p.hand }) := by
  induction ps with
  | nil => rfl
  | cons p rest ih =>
    by_cases hp : p.seat = s
    · simp [updateHand, getPlayerBySeat, hp]
    · simp [updateHand, getPlayerBySeat, hp, ih]

/-- `next_seat` only looks at the seat layout. -/
theorem next_seat_congr (g g' : GameState) (x : Nat)
    (h : g'.players.map Player.seat = g.players.map Player.seat) :
    next_seat g' x = next_seat g x := by
  unfold next_seat
  rw [h]

/-- C1 counterexample: in `cutState` it is seat 2's turn, seat 2 is void
in spades (the calling suit), trump (hearts) is concealed, and seat 2
submits the trump card `J_hearts`.  The claim requires the play to be
rejected; the handler instead accepts it (no error) and removes the card
from the hand. -/
theorem concealed_cut_accepted_cex :
    (handle_play_card cutState 2 "J_hearts").1 = true ∧
    (getPlayerBySeat (handle_play_card cutState 2 "J_hearts").2.1.players 2).map
      Player.hand = some [⟨.clubs, .ace⟩] := by decide

/-- C1 (amended): in a `PLAYING` state where it is seat `s`'s turn, `s` is
void in the calling suit, trump is concealed, and `s` submits a card of
the trump suit, the play is accepted as a plain discard — no error, the
result is not marked as a cut, the card leaves the hand and joins the
trick (stated for plays that do not complete the trick). -/
theorem concealed_trump_play_accepted (g : GameState) (s : Nat) (p : Player)
    (card : Card) (cid : String) (cs : Suit)
    (hform : Card.fromId cid = some card)
    (hphase : g.phase = GamePhase.PLAYING)
    (hturn : g.turn_seat = some s)
    (hp : getPlayerBySeat g.players s = some p)
    (hmem : card ∈ p.hand)
    (hcall : get_calling_suit g = some cs)
    (hvoid : ∀ c ∈ p.hand, c.suit ≠ cs)
    (_htrump : g.trump_suit = some card.suit)
    (hconceal : g.trump_revealed = false)
    (hnotlast : g.current_trick.length + 1 ≠ g.players.length) :
    (handle_play_card g s cid).1 = true ∧
    (∃ r : PlayResult, (handle_play_card g s cid).2.2 = some r ∧ r.is_cut = false) ∧
    (getPlayerBySeat (handle_play_card g s cid).2.1.players s).map Player.hand =
      some (p.hand.erase card) ∧
    (handle_play_card g s cid).2.1.current_trick =
      g.current_trick ++ [⟨s, card⟩] := by
  have hhandne : p.hand ≠ [] := List.ne_nil_of_mem hmem
  have hfilter : p.hand.filter (fun c => decide (c.suit = cs)) = [] := by
    rw [List.filter_eq_nil_iff]
    intro c hc
    simp [hvoid c hc]
  have hvalid : get_valid_cards g s = some p.hand := by
    unfold get_valid_cards
    rw [hp]
    simp only [hcall, hhandne, if_false, hfilter]
    simp
  have hval : validate_play g s card false = (true, "") := by
    unfold validate_play
    rw [hphase, hturn, hp]
    simp [hvalid, hmem, hcall]
  have hremove : removeCard p.hand card = some (p.hand.erase card) := by
    unfold removeCard
    simp [hmem]
  obtain ⟨tc0, rest, htrick, hsuit⟩ :
      ∃ tc0 rest, g.current_trick = tc0 :: rest ∧ tc0.card.suit = cs := by
    unfold get_calling_suit at hcall
    rcases hct : g.current_trick with _ | ⟨t0, r0⟩
    · rw [hct] at hcall
      simp at hcall
    · rw [hct] at hcall
      simp only [Option.some.injEq] at hcall
      exact ⟨t0, r0, rfl, hcall⟩
  rw [htrick] at hnotlast
  have hmain :
      handle_play_card g s cid =
        (true,
         { g with players := updateHand g.players s (fun h => h.erase card),
                  current_trick := g.current_trick ++ [⟨s, card⟩],
                  turn_seat := some (next_seat g s) },
         some { card_played := card, seat := s, is_cut := false,
                next_turn := some (next_seat g s) }) := by
    unfold handle_play_card
    rw [hform]
    simp only [hcall, hconceal, Bool.and_false, hval, if_true]
    unfold play_card
    simp only [hp, hremove]
    simp only [htrick, get_calling_suit, hsuit, hconceal, Bool.and_false,
      Bool.false_and]
    have hnext : ∀ g' : GameState,
        g'.players.map Player.seat = g.players.map Player.seat →
        next_seat g' s = next_seat g s := fun g' hg' => next_seat_congr g g' s hg'
    have hc : ¬(((tc0 :: rest) ++ [TrickCard.mk s card]).length =
        (updateHand g.players s (fun h => h.erase card)).length) := by
      simp only [updateHand_length, List.length_cons, List.length_append,
        List.length_nil] at hnotlast ⊢
      omega
    split
    · rename_i heq
      rw [if_neg hc] at heq
      simp at heq
    · rename_i g1 r heq
      rw [if_neg hc] at heq
      rw [hnext _ (by simp [updateHand_seats])] at heq
      simp only [Option.some.injEq, Prod.mk.injEq] at heq
      obtain ⟨hg1, hr⟩ := heq
      subst hg1
      subst hr
      simp
  refine ⟨by rw [hmain], ⟨_, by rw [hmain], rfl⟩, ?_, by rw [hmain]⟩
  rw [hmain]
  simp only
  rw [getPlayerBySeat_updateHand, hp]
  rfl

/-- The trick-pile counting loop of `check_spoilt_trump`, as a length. -/
theorem trick_count_eq (tw : List (Nat × List Card)) (team : List Nat)
    (ts : Suit) (acc : Nat) :
    (tw.foldl
      (fun acc kv =>
        if kv.1 ∈ team then acc + (kv.2.filter (fun c => c.suit = ts)).length
        else acc)
      acc)
      = acc + (teamTrickTrumps tw team ts).length := by
  induction tw generalizing acc with
  | nil => simp [teamTrickTrumps]
  | cons kv rest ih =>
    by_cases hm : kv.1 ∈ team
    · simp only [List.foldl_cons, hm, if_true, ih, teamTrickTrumps,
        List.length_append]
      omega
    · simp [teamTrickTrumps, hm, ih]

/-- The hand counting loop of `check_spoilt_trump`, as a length. -/
theorem hand_count_eq (g : GameState) (team : List Nat) (ts : Suit)
    (acc : Nat) :
    (team.foldl
      (fun acc s =>
        match getPlayerBySeat g.players s with
        | some p => acc + (p.hand.filter (fun c => c.suit = ts)).length
        | none => acc)
      acc)
      = acc + (teamHandTrumps g team ts).length := by
  induction team generalizing acc with
  | nil => simp [teamHandTrumps]
  | cons s rest ih =>
    rcases hp : getPlayerBySeat g.players s with _ | p
    · simp [teamHandTrumps, hp, ih]
    · simp only [List.foldl_cons, hp]
      rw [ih]
      simp only [teamHandTrumps, hp, List.length_append]
      exact Nat.add_assoc _ _ _

/-- C3: if at the end of play the trumper-team's possession (its
`tricks_won`, an unrevealed `trump_card`, trump still in team hands)
contains all eight cards of the trump suit, the game is detected as spoilt
and scoring awards nothing: the phase moves to `SCORING` and every seat's
cumulative score (and `games_played`) is unchanged. -/
theorem spoilt_trump_awards_nothing (g : GameState) (ts : Suit)
    (hts : g.trump_suit = some ts)
    (htc : ∀ c, g.trump_card = some c → c.suit = ts)
    (hall : trumperTrumpHolding g ts = allTrumpCards ts) :
    check_spoilt_trump g = true ∧
    scoreGame g =
      some ({ g with phase := GamePhase.SCORING },
            { spoilt := true, trumper_points := 0, opposing_points := 0,
              scores := g.scores }) := by
  have hcard8 : (allTrumpCards ts).card = 8 := by
    simp [allTrumpCards, rankList]
  have h8 : (trumperTrumpHolding g ts).card = 8 := by
    rw [hall]
    exact hcard8
  have hdecomp : (trumperTrumpHolding g ts).card =
      (teamTrickTrumps g.tricks_won (get_trumper_team_seats g) ts).length
        + (Multiset.filter (fun c => c.suit = ts) (trumpSlotM g)).card
        + (teamHandTrumps g (get_trumper_team_seats g) ts).length := by
    simp [trumperTrumpHolding]
  have hslot : (Multiset.filter (fun c => c.suit = ts) (trumpSlotM g)).card =
      (match g.trump_card with
       | some _ => if ¬g.trump_revealed then 1 else 0
       | none => 0) := by
    unfold trumpSlotM
    rcases hc : g.trump_card with _ | c
    · by_cases hr : g.trump_revealed <;> simp [hr]
    · have hcs : c.suit = ts := htc c hc
      by_cases hr : g.trump_revealed <;>
        simp [hr, Multiset.filter_singleton, hcs]
  have hchk : check_spoilt_trump g = true := by
    unfold check_spoilt_trump
    rw [hts]
    simp only [trick_count_eq, hand_count_eq, Nat.zero_add,
      decide_eq_true_eq]
    rw [← hslot]
    omega
  refine ⟨hchk, ?_⟩
  unfold scoreGame
  rw [if_pos]
  exact hchk

/-- C3 witness: `spoiltState` — seats 0 and 2 (the trumper team) hold all
eight hearts in their trick piles, hearts being trump. -/
theorem spoilt_trump_awards_nothing_witness :
    check_spoilt_trump spoiltState = true ∧
    scoreGame spoiltState =
      some ({ spoiltState with phase := GamePhase.SCORING },
            { spoilt := true, trumper_points := 0, opposing_points := 0,
              scores := spoiltState.scores }) :=
  spoilt_trump_awards_nothing spoiltState .hearts (by decide)
    (fun c h => Option.noConfusion h) (by decide)

/-- C1 (amended) witness: the `cutState` play of `J_hearts` by seat 2. -/
theorem concealed_trump_play_accepted_witness :
    (handle_play_card cutState 2 "J_hearts").1 = true ∧
    (∃ r : PlayResult,
      (handle_play_card cutState 2 "J_hearts").2.2 = some r ∧ r.is_cut = false) ∧
    (getPlayerBySeat (handle_play_card cutState 2 "J_hearts").2.1.players 2).map
      Player.hand = some ([⟨.hearts, .jack⟩, ⟨.clubs, .ace⟩].erase ⟨.hearts, .jack⟩) ∧
    (handle_play_card cutState 2 "J_hearts").2.1.current_trick =
      cutState.current_trick ++ [⟨2, ⟨.hearts, .jack⟩⟩] :=
  concealed_trump_play_accepted cutState 2
    { player_id := "p2", name := "P2", seat := 2,
      hand := [⟨.hearts, .jack⟩, ⟨.clubs, .ace⟩] }
    ⟨.hearts, .jack⟩ "J_hearts" .spades
    (by decide) (by decide) (by decide) (by decide) (by decide) (by decide)
    (by decide) (by decide) (by decide) (by decide)

/-! ## Codec round-trip lemmas -/

theorem natDigitsAux_eq (fuel n : Nat) (h : n ≤ fuel) :
    natDigitsAux fuel n = Nat.digits 10 n := by
  induction fuel generalizing n with
  | zero =>
    interval_cases n
    simp [natDigitsAux]
  | succ fuel ih =>
    match n with
    | 0 => simp [natDigitsAux]
    | m + 1 =>
      rw [show natDigitsAux (fuel + 1) (m + 1) =
            ((m + 1) % 10) :: natDigitsAux fuel ((m + 1) / 10) from rfl]
      rw [ih ((m + 1) / 10)
        (by
          have := Nat.div_lt_self (Nat.succ_pos m) (by norm_num : 1 < 10)
          omega)]
      rw [Nat.digits_def' (by norm_num : 1 < 10) (Nat.succ_pos m)]

theorem natDigits_eq (n : Nat) : natDigits n = Nat.digits 10 n :=
  natDigitsAux_eq n n le_rfl

theorem digitToNat_digitChar (d : Nat) (h : d < 10) :
    digitToNat (Nat.digitChar d) = some d := by
  interval_cases d <;> rfl

theorem mapM_digitToNat_map_digitChar (l : List Nat) (h : ∀ d ∈ l, d < 10) :
    (l.map Nat.digitChar).mapM digitToNat = some l := by
  induction l with
  | nil => rfl
  | cons d rest ih =>
    simp only [List.map_cons, List.mapM_cons]
    rw [digitToNat_digitChar d (h d (by simp))]
    rw [ih (fun x hx => h x (by simp [hx]))]
    rfl

/-- Python `int ∘ str` is the identity on nonnegative integers. -/
theorem natParse_natRepr (n : Nat) : natParse (natRepr n) = some n := by
  rcases Nat.eq_zero_or_pos n with rfl | hpos
  · rfl
  · have hne : n ≠ 0 := Nat.pos_iff_ne_zero.mp hpos
    have hdne : Nat.digits 10 n ≠ [] := by
      simpa using Nat.digits_ne_nil_iff_ne_zero.mpr hne
    unfold natRepr
    rw [if_neg hne]
    unfold natParse
    have hdata : (String.mk (((natDigits n).map Nat.digitChar).reverse)).data =
        ((Nat.digits 10 n).reverse).map Nat.digitChar := by
      show ((natDigits n).map Nat.digitChar).reverse = _
      rw [natDigits_eq, List.map_reverse]
    rw [hdata]
    rw [if_neg (by
      simp only [List.isEmpty_iff, List.map_eq_nil_iff, List.reverse_eq_nil_iff]
      exact hdne)]
    rw [mapM_digitToNat_map_digitChar _
      (fun d hd => Nat.digits_lt_base (by norm_num) (by simpa using hd))]
    simp [Nat.ofDigits_digits]

theorem phase_value_roundtrip (p : GamePhase) :
    GamePhase.fromString p.value = some p := by
  cases p <;> rfl

theorem suit_value_roundtrip (s : Suit) :
    Suit.fromString s.value = some s := by
  cases s <;> rfl

/-- The card-identifier codec round-trips (spec scenario S5). -/
theorem fromId_id (c : Card) : Card.fromId c.id = some c := by
  rcases c with ⟨s, r⟩
  cases s <;> cases r <;> rfl

theorem cards_roundtrip (l : List Card) :
    (l.map Card.id).mapM Card.fromId = some l := by
  induction l with
  | nil => rfl
  | cons c rest ih =>
    simp only [List.map_cons, List.mapM_cons, fromId_id, ih]
    rfl

theorem player_roundtrip (p : Player) :
    deserializePlayer (serializePlayer p) = some p := by
  unfold deserializePlayer serializePlayer
  rw [cards_roundtrip]
  rfl

theorem players_roundtrip (ps : List Player) :
    (ps.map serializePlayer).mapM deserializePlayer = some ps := by
  induction ps with
  | nil => rfl
  | cons p rest ih =>
    simp only [List.map_cons, List.mapM_cons, player_roundtrip, ih]
    rfl

theorem tricksWon_roundtrip (tw : List (Nat × List Card)) :
    ((tw.map (fun kv => (natRepr kv.1, kv.2.map Card.id))).mapM
      (fun kv => do
        let k ← natParse kv.1
        let cs ← kv.2.mapM Card.fromId
        pure ((k, cs) : Nat × List Card))) = some tw := by
  induction tw with
  | nil => rfl
  | cons kv rest ih =>
    rw [List.map_cons, List.mapM_cons, ih, natParse_natRepr, cards_roundtrip]
    rfl

theorem trick_roundtrip (ct : List TrickCard) :
    ((ct.map (fun tc => (tc.seat, tc.card.id))).mapM
      (fun tc => do
        let c ← Card.fromId tc.2
        pure (TrickCard.mk tc.1 c))) = some ct := by
  induction ct with
  | nil => rfl
  | cons tc rest ih =>
    rw [List.map_cons, List.mapM_cons, ih, fromId_id]
    rfl

theorem scores_roundtrip (sc : List (Nat × Nat)) :
    ((sc.map (fun kv => (natRepr kv.1, kv.2))).mapM
      (fun kv => do
        let k ← natParse kv.1
        pure ((k, kv.2) : Nat × Nat))) = some sc := by
  induction sc with
  | nil => rfl
  | cons kv rest ih =>
    rw [List.map_cons, List.mapM_cons, ih, natParse_natRepr]
    rfl

/-- C4: serializing and deserializing a game state reconstructs it exactly
(the stored item's `ttl` attribute is added outside the codec and never
read back, so this holds for every state whose `ttl` field is unset, which
is every state the engine produces). -/
theorem serialize_roundtrip (g : GameState) (h : g.ttl = none) :
    deserialize_game_state (serialize_game_state g) = some g := by
  rcases g with ⟨code, mode, phase, players, dealer, deck, center, bids,
    cb, bts, trs, tsu, tca, trv, exd, ct, tw, tseat, tdl, tn, ls, sc, gp,
    ca, ttl⟩
  simp only at h
  subst h
  rcases tsu with _ | ts <;> rcases tca with _ | c <;>
    (unfold serialize_game_state deserialize_game_state ;
     dsimp only ;
     rw [phase_value_roundtrip, players_roundtrip, cards_roundtrip,
       cards_roundtrip, trick_roundtrip, tricksWon_roundtrip,
       scores_roundtrip] ;
     simp [suit_value_roundtrip, fromId_id])

/-- C4 witness: the round trip on `serState`, which exercises every
serialized field. -/
theorem serialize_roundtrip_witness :
    serState.ttl = none ∧
    deserialize_game_state (serialize_game_state serState) = some serState :=
  ⟨rfl, serialize_roundtrip serState rfl⟩

/-! ## Auto-play (timeout) -/

/-- The legal set is homogeneous: either everything follows the calling
suit, or the seat is void and nothing does. -/
theorem get_valid_cards_shape (g : GameState) (seat : Nat)
    (valid : List Card) (cs : Suit)
    (hv : get_valid_cards g seat = some valid)
    (hc : get_calling_suit g = some cs) :
    (∀ c ∈ valid, c.suit = cs) ∨ (∀ c ∈ valid, c.suit ≠ cs) := by
  unfold get_valid_cards at hv
  rcases hp : getPlayerBySeat g.players seat with _ | p
  · rw [hp] at hv
    simp at hv
  · rw [hp] at hv
    by_cases hh : p.hand = []
    · simp only [hh, if_true, Option.some.injEq] at hv
      subst hv
      left
      intro c hc'
      simp at hc'
    · simp only [hh, if_false, hc] at hv
      by_cases hf : p.hand.filter (fun c => decide (c.suit = cs)) = []
      · right
        simp only [hf, ne_eq, not_true_eq_false, if_false,
          Option.some.injEq] at hv
        subst hv
        intro c hcv
        have := List.filter_eq_nil_iff.mp hf c hcv
        simpa using this
      · left
        simp only [ne_eq, hf, not_false_eq_true, if_true,
          Option.some.injEq] at hv
        subst hv
        intro c hcv
        have := List.of_mem_filter hcv
        simpa using this

/-- C8: when trump is concealed, a calling suit has been led and some
legal card is not of the trump suit, the timeout auto-play selects a
non-trump card for every outcome of the injected random choices, and plays
exactly that card. -/
theorem auto_play_avoids_concealed_trump (g : GameState) (seat : Nat)
    (valid : List Card) (cs : Suit) (i j : Nat)
    (hconceal : g.trump_revealed = false)
    (hcall : get_calling_suit g = some cs)
    (hv : get_valid_cards g seat = some valid)
    (hvne : valid ≠ [])
    (hnt : ∃ c ∈ valid, some c.suit ≠ g.trump_suit) :
    some (auto_pick g valid i j).suit ≠ g.trump_suit ∧
    auto_play g seat i j =
      (play_card g seat (auto_pick g valid i j)).map
        (fun gr => (gr.1, some gr.2)) := by
  constructor
  · have hlt : i % valid.length < valid.length :=
      Nat.mod_lt _ (List.length_pos.mpr hvne)
    have hmem0 : valid.getD (i % valid.length) default ∈ valid := by
      rw [List.getD_eq_getElem valid default hlt]
      exact List.getElem_mem hlt
    unfold auto_pick
    rw [hcall]
    by_cases h0 : (valid.getD (i % valid.length) default).suit = cs
    · -- the first choice follows suit; no restriction is applied
      rcases get_valid_cards_shape g seat valid cs hv hcall with hall | hnone
      · obtain ⟨c, hcmem, hcnt⟩ := hnt
        have : c.suit = cs := hall c hcmem
        simp only [h0, hconceal, ne_eq, not_true_eq_false, false_and,
          if_false]
        rw [← this]
        exact hcnt
      · exact absurd h0 (hnone _ hmem0)
    · -- restricted to the non-trump legal cards
      have hfne : valid.filter (fun c => decide (some c.suit ≠ g.trump_suit)) ≠ [] := by
        obtain ⟨c, hcmem, hcnt⟩ := hnt
        intro hnil
        have := List.filter_eq_nil_iff.mp hnil c hcmem
        simp [hcnt] at this
      simp only [h0, hconceal, Bool.not_false, ne_eq, not_false_eq_true,
        true_and, if_true, hfne]
      set nt := valid.filter (fun c => decide (some c.suit ≠ g.trump_suit)) with hntdef
      have hlt2 : j % nt.length < nt.length :=
        Nat.mod_lt _ (List.length_pos.mpr hfne)
      have hmem2 : nt.getD (j % nt.length) default ∈ nt := by
        rw [List.getD_eq_getElem nt default hlt2]
        exact List.getElem_mem hlt2
      have := List.of_mem_filter hmem2
      simpa using this
  · unfold auto_play
    rw [hv]
    simp only [hvne, if_false]
    rcases play_card g seat (auto_pick g valid i j) with _ | ⟨g1, r⟩ <;> simp

/-- C8 witness: in `cutState` (trump hearts concealed, spades led), seat
2's legal cards are `J_hearts` and `A_clubs`; every choice pair plays a
non-heart — checked at `i = 0, j = 0`. -/
theorem auto_play_avoids_concealed_trump_witness :
    some (auto_pick cutState [⟨.hearts, .jack⟩, ⟨.clubs, .ace⟩] 0 0).suit ≠
      cutState.trump_suit ∧
    auto_play cutState 2 0 0 =
      (play_card cutState 2
        (auto_pick cutState [⟨.hearts, .jack⟩, ⟨.clubs, .ace⟩] 0 0)).map
        (fun gr => (gr.1, some gr.2)) :=
  auto_play_avoids_concealed_trump cutState 2
    [⟨.hearts, .jack⟩, ⟨.clubs, .ace⟩] .spades 0 0
    (by decide) (by decide) (by decide) (by decide) (by decide)

/-! ## Dealing -/

/-- C9: for a full lobby and any 32-card shuffled deck, `deal` gives mode-4
hands 8 cards each with an empty center pile, mode-3 hands 10 with 2 in the
center, mode-2 hands 10 with 12 in the center, drains the `deck` field, and
the first four cards go to the seat clockwise of the dealer. -/
theorem deal_distribution (mode dealer : Nat) (deck : List Card)
    (hm : mode = 2 ∨ mode = 3 ∨ mode = 4) (hd : dealer < mode)
    (hlen : deck.length = 32) :
    (∀ p ∈ (dealWith (lobby mode dealer) deck).players,
      p.hand.length = (if mode = 4 then 8 else 10)) ∧
    (dealWith (lobby mode dealer) deck).center_pile.length =
      (if mode = 4 then 0 else if mode = 3 then 2 else 12) ∧
    (dealWith (lobby mode dealer) deck).deck = [] ∧
    ((getPlayerBySeat (dealWith (lobby mode dealer) deck).players
        (next_seat (lobby mode dealer) dealer)).map
      (fun p => p.hand.take 4)) = some (deck.take 4) := by
  have h2 : List.range 2 = [0, 1] := rfl
  have h3 : List.range 3 = [0, 1, 2] := rfl
  have h4 : List.range 4 = [0, 1, 2, 3] := rfl
  have htk : ∀ (a : Nat) (l : List Card), 4 + a ≤ l.length →
      ((l.drop a).take 4).take 4 = (l.drop a).take 4 := by
    intro a l _
    simp [List.take_take]
  rcases hm with rfl | rfl | rfl <;> interval_cases dealer <;>
    refine ⟨?_, ?_, ?_, ?_⟩ <;>
      simp [dealWith, lobby, mkPlayers, h2, h3, h4, sortNat, insertSorted,
        idxOf, dealLoop, giveToSeat, updateHand, getPlayerBySeat, next_seat,
        List.getD, List.flatMap_cons, List.take_append_of_le_length,
        List.take_take, hlen, List.length_take, List.length_drop,
        List.length_append]

/-- C9 witness: mode 4, dealer seat 0, dealing the unshuffled deck. -/
theorem deal_distribution_witness :
    ((4 : Nat) = 2 ∨ (4 : Nat) = 3 ∨ (4 : Nat) = 4) ∧ 0 < 4 ∧
    create_deck.length = 32 ∧
    ((∀ p ∈ (dealWith (lobby 4 0) create_deck).players,
        p.hand.length = (if (4 : Nat) = 4 then 8 else 10)) ∧
     (dealWith (lobby 4 0) create_deck).center_pile.length =
       (if (4 : Nat) = 4 then 0 else if (4 : Nat) = 3 then 2 else 12) ∧
     (dealWith (lobby 4 0) create_deck).deck = [] ∧
     ((getPlayerBySeat (dealWith (lobby 4 0) create_deck).players
         (next_seat (lobby 4 0) 0)).map (fun p => p.hand.take 4)) =
       some (create_deck.take 4)) :=
  ⟨by decide, by decide, by decide,
   deal_distribution 4 0 create_deck (by decide) (by decide) (by decide)⟩

/-! ## `next_game` frame conditions -/

/-- Record projections preserved through `dealWith`: the deal only touches
hands, the center pile and the deck. -/
theorem dealWith_frame (g : GameState) (deck : List Card) :
    (dealWith g deck).game_code = g.game_code ∧
    (dealWith g deck).mode = g.mode ∧
    (dealWith g deck).phase = g.phase ∧
    (dealWith g deck).dealer_seat = g.dealer_seat ∧
    (dealWith g deck).players.map
        (fun p => (p.player_id, p.name, p.seat, p.connection_id)) =
      g.players.map (fun p => (p.player_id, p.name, p.seat, p.connection_id)) ∧
    (dealWith g deck).bids = g.bids ∧
    (dealWith g deck).current_bid = g.current_bid ∧
    (dealWith g deck).bid_turn_seat = g.bid_turn_seat ∧
    (dealWith g deck).trumper_seat = g.trumper_seat ∧
    (dealWith g deck).trump_suit = g.trump_suit ∧
    (dealWith g deck).trump_card = g.trump_card ∧
    (dealWith g deck).trump_revealed = g.trump_revealed ∧
    (dealWith g deck).exchange_done = g.exchange_done ∧
    (dealWith g deck).current_trick = g.current_trick ∧
    (dealWith g deck).tricks_won = g.tricks_won ∧
    (dealWith g deck).turn_seat = g.turn_seat ∧
    (dealWith g deck).turn_deadline = g.turn_deadline ∧
    (dealWith g deck).trick_number = g.trick_number ∧
    (dealWith g deck).lead_seat = g.lead_seat ∧
    (dealWith g deck).scores = g.scores ∧
    (dealWith g deck).games_played = g.games_played ∧
    (dealWith g deck).deck = [] := by
  have hup : ∀ (ps : List Player) (s : Nat) (f : List Card → List Card),
      (updateHand ps s f).map
          (fun p => (p.player_id, p.name, p.seat, p.connection_id)) =
        ps.map (fun p => (p.player_id, p.name, p.seat, p.connection_id)) := by
    intro ps s f
    induction ps with
    | nil => rfl
    | cons p rest ih =>
      unfold updateHand
      split <;> simp [ih]
  have hloop : ∀ (pairs : List (Nat × Nat)) (idx : Nat) (ps : List Player),
      (dealLoop deck pairs idx ps).1.map
          (fun p => (p.player_id, p.name, p.seat, p.connection_id)) =
        ps.map (fun p => (p.player_id, p.name, p.seat, p.connection_id)) := by
    intro pairs
    induction pairs with
    | nil => intro idx ps; rfl
    | cons bs rest ih =>
      intro idx ps
      rcases bs with ⟨b, s⟩
      unfold dealLoop
      rw [ih, giveToSeat, hup]
  unfold dealWith
  dsimp only
  split <;> (try split) <;> (try split) <;> simp_all [hloop, hup]

/-- C10: from `SCORING`, a successful `next_game` keeps the game identity
(code, mode, every player's id/name/seat, connection), every seat's
cumulative score and `games_played`, while clearing all per-game state:
trump fields, tricks, trick pointers and deadline; bidding state is
re-initialized by the restart (`bids = []`, no `current_bid`), the phase is
`BIDDING`, and the old `center_pile`/hands are replaced by the new deal. -/
theorem next_game_frame (g : GameState) (deck : List Card)
    (h : g.phase = GamePhase.SCORING) :
    (next_game g deck).1 = true ∧
    ((next_game g deck).2.2.game_code = g.game_code ∧
     (next_game g deck).2.2.mode = g.mode ∧
     (next_game g deck).2.2.players.map
         (fun p => (p.player_id, p.name, p.seat, p.connection_id)) =
       g.players.map (fun p => (p.player_id, p.name, p.seat, p.connection_id)) ∧
     (next_game g deck).2.2.scores = g.scores ∧
     (next_game g deck).2.2.games_played = g.games_played) ∧
    ((next_game g deck).2.2.dealer_seat = next_seat g g.dealer_seat ∧
     (next_game g deck).2.2.phase = GamePhase.BIDDING ∧
     (next_game g deck).2.2.bids = [] ∧
     (next_game g deck).2.2.current_bid = none ∧
     (next_game g deck).2.2.trumper_seat = none ∧
     (next_game g deck).2.2.trump_suit = none ∧
     (next_game g deck).2.2.trump_card = none ∧
     (next_game g deck).2.2.trump_revealed = false ∧
     (next_game g deck).2.2.exchange_done = false ∧
     (next_game g deck).2.2.current_trick = [] ∧
     (next_game g deck).2.2.tricks_won = [] ∧
     (next_game g deck).2.2.turn_seat = none ∧
     (next_game g deck).2.2.turn_deadline = none ∧
     (next_game g deck).2.2.trick_number = 0 ∧
     (next_game g deck).2.2.lead_seat = none ∧
     (next_game g deck).2.2.deck = []) := by
  unfold next_game
  rw [if_neg (by simp [h])]
  simp only [start_bidding]
  have hf := dealWith_frame
    { g with dealer_seat := next_seat g g.dealer_seat,
             bids := [], current_bid := none, bid_turn_seat := none,
             trumper_seat := none, trump_suit := none, trump_card := none,
             trump_revealed := false, exchange_done := false,
             current_trick := [], tricks_won := [],
             turn_seat := none, turn_deadline := none, trick_number := 0,
             lead_seat := none, center_pile := [],
             phase := GamePhase.DEALING } deck
  obtain ⟨h1, h2, _, h4, h5, _, _, _, h9, h10, h11, h12, h13, h14, h15, h16,
    h17, h18, h19, h20, h21, h22⟩ := hf
  simp_all

/-- C10 witness: `next_game` on the concrete `scoringState` with a fresh
unshuffled deck. -/
theorem next_game_frame_witness :
    scoringState.phase = GamePhase.SCORING ∧
    ((next_game scoringState create_deck).1 = true ∧
     ((next_game scoringState create_deck).2.2.game_code = scoringState.game_code ∧
      (next_game scoringState create_deck).2.2.mode = scoringState.mode ∧
      (next_game scoringState create_deck).2.2.players.map
          (fun p => (p.player_id, p.name, p.seat, p.connection_id)) =
        scoringState.players.map
          (fun p => (p.player_id, p.name, p.seat, p.connection_id)) ∧
      (next_game scoringState create_deck).2.2.scores = scoringState.scores ∧
      (next_game scoringState create_deck).2.2.games_played =
        scoringState.games_played) ∧
     ((next_game scoringState create_deck).2.2.dealer_seat =
        next_seat scoringState scoringState.dealer_seat ∧
      (next_game scoringState create_deck).2.2.phase = GamePhase.BIDDING ∧
      (next_game scoringState create_deck).2.2.bids = [] ∧
      (next_game scoringState create_deck).2.2.current_bid = none ∧
      (next_game scoringState create_deck).2.2.trumper_seat = none ∧
      (next_game scoringState create_deck).2.2.trump_suit = none ∧
      (next_game scoringState create_deck).2.2.trump_card = none ∧
      (next_game scoringState create_deck).2.2.trump_revealed = false ∧
      (next_game scoringState create_deck).2.2.exchange_done = false ∧
      (next_game scoringState create_deck).2.2.current_trick = [] ∧
      (next_game scoringState create_deck).2.2.tricks_won = [] ∧
      (next_game scoringState create_deck).2.2.turn_seat = none ∧
      (next_game scoringState create_deck).2.2.turn_deadline = none ∧
      (next_game scoringState create_deck).2.2.trick_number = 0 ∧
      (next_game scoringState create_deck).2.2.lead_seat = none ∧
      (next_game scoringState create_deck).2.2.deck = [])) :=
  ⟨by decide, next_game_frame scoringState create_deck (by decide)⟩

/-! ## Card-conservation lemmas -/

theorem handsM_cons (p : Player) (ps : List Player) :
    handsM (p :: ps) = (p.hand : Multiset Card) + handsM ps := by
  simp [handsM]

theorem handsM_updateHand (ps : List Player) (s : Nat) (p : Player)
    (f : List Card → List Card)
    (hp : getPlayerBySeat ps s = some p) :
    handsM (updateHand ps s f) + (p.hand : Multiset Card) =
      handsM ps + (f p.hand : Multiset Card) := by
  induction ps with
  | nil => simp [getPlayerBySeat] at hp
  | cons q rest ih =>
    unfold getPlayerBySeat at hp
    unfold updateHand
    by_cases hq : q.seat = s
    · rw [if_pos hq] at hp ⊢
      have hqp : q = p := by
        simpa using hp
      subst hqp
      simp only [handsM_cons]
      abel
    · rw [if_neg hq] at hp ⊢
      calc handsM (q :: updateHand rest s f) + (p.hand : Multiset Card)
          = (q.hand : Multiset Card) +
              (handsM (updateHand rest s f) + (p.hand : Multiset Card)) := by
            simp [handsM_cons, add_assoc]
        _ = (q.hand : Multiset Card) +
              (handsM rest + (f p.hand : Multiset Card)) := by rw [ih hp]
        _ = handsM (q :: rest) + (f p.hand : Multiset Card) := by
            simp [handsM_cons, add_assoc]

theorem removeCard_multiset (hand h' : List Card) (c : Card)
    (h : removeCard hand c = some h') :
    (h' : Multiset Card) + {c} = (hand : Multiset Card) := by
  unfold removeCard at h
  split at h
  · rename_i hm
    simp only [Option.some.injEq] at h
    subst h
    rw [add_comm, Multiset.singleton_add, ← Multiset.coe_erase,
      Multiset.cons_erase]
    simpa using hm
  · simp at h

/-- `handsM` after giving one card to a seated player. -/
theorem handsM_give_one (ps : List Player) (s : Nat) (p : Player) (c : Card)
    (hp : getPlayerBySeat ps s = some p) :
    handsM (updateHand ps s (fun h => h ++ [c])) = handsM ps + {c} := by
  have h := handsM_updateHand ps s p (fun h => h ++ [c]) hp
  have hc : ((p.hand ++ [c] : List Card) : Multiset Card) =
      (p.hand : Multiset Card) + {c} := rfl
  rw [hc] at h
  have := add_right_cancel
    (a := handsM (updateHand ps s (fun h => h ++ [c])))
    (b := (p.hand : Multiset Card))
    (c := handsM ps + {c})
    (by rw [h]; abel)
  exact this

/-- `handsM` after erasing a held card from a seated player's hand. -/
theorem handsM_erase_one (ps : List Player) (s : Nat) (p : Player) (c : Card)
    (hp : getPlayerBySeat ps s = some p) (hm : c ∈ p.hand) :
    handsM (updateHand ps s (fun h => h.erase c)) + {c} = handsM ps := by
  have h := handsM_updateHand ps s p (fun h => h.erase c) hp
  have hc : ((p.hand.erase c : List Card) : Multiset Card) + {c} =
      (p.hand : Multiset Card) :=
    removeCard_multiset p.hand (p.hand.erase c) c (by simp [removeCard, hm])
  apply add_right_cancel (b := ((p.hand.erase c : List Card) : Multiset Card))
  calc handsM (updateHand ps s (fun h => h.erase c)) + {c} +
        ((p.hand.erase c : List Card) : Multiset Card)
      = handsM (updateHand ps s (fun h => h.erase c)) +
          (p.hand : Multiset Card) := by rw [← hc]; abel
    _ = handsM ps + ((p.hand.erase c : List Card) : Multiset Card) := h

theorem tricksM_alistExtend (tw : List (Nat × List Card)) (s : Nat)
    (cs : List Card) :
    tricksM (alistExtend tw s cs) = tricksM tw + (cs : Multiset Card) := by
  induction tw with
  | nil => simp [alistExtend, tricksM]
  | cons kv rest ih =>
    unfold alistExtend
    split
    · simp only [tricksM, List.map_cons, List.sum_cons]
      have happ : ((kv.2 ++ cs : List Card) : Multiset Card) =
          (kv.2 : Multiset Card) + (cs : Multiset Card) := rfl
      rw [happ]
      abel
    · simp only [tricksM, List.map_cons, List.sum_cons] at ih ⊢
      rw [ih]
      abel

/-- `reveal_trump` conserves the card multiset: the unrevealed trump card
moves from the engine slot back into the trumper's hand. -/
theorem reveal_trump_conserved (g : GameState) (b : Bool) (m : String)
    (g' : GameState) (h : reveal_trump g = some (b, m, g')) :
    conservedCards g' = conservedCards g ∧ g'.mode = g.mode ∧
    g'.players.length = g.players.length ∧ g'.phase = g.phase ∧
    g'.trump_card = g.trump_card := by
  unfold reveal_trump at h
  split at h
  · simp only [Option.some.injEq, Prod.mk.injEq] at h
    obtain ⟨-, -, hg⟩ := h
    subst hg
    exact ⟨rfl, rfl, rfl, rfl, rfl⟩
  · split at h
    · simp only [Option.some.injEq, Prod.mk.injEq] at h
      obtain ⟨-, -, hg⟩ := h
      subst hg
      exact ⟨rfl, rfl, rfl, rfl, rfl⟩
    · rename_i hrev hsuit
      have hrev' : g.trump_revealed = false := by
        simpa using hrev
      dsimp only at h
      split at h
      · rename_i htc
        simp only [Option.some.injEq, Prod.mk.injEq] at h
        obtain ⟨-, -, hg⟩ := h
        subst hg
        refine ⟨?_, rfl, rfl, rfl, rfl⟩
        unfold conservedCards trumpSlotM
        simp [htc, hrev']
      · rename_i c htc
        split at h
        · simp at h
        · rename_i t hts
          split at h
          · simp at h
          · rename_i p hp
            simp only [Option.some.injEq, Prod.mk.injEq] at h
            obtain ⟨-, -, hg⟩ := h
            subst hg
            refine ⟨?_, rfl, by simp [updateHand_length], rfl, rfl⟩
            unfold conservedCards trumpSlotM
            have hgive := handsM_give_one g.players t p c hp
            simp only [hrev', htc]
            rw [hgive]
            abel

/-- The 2-player draw loop moves cards from the center pile to hands. -/
theorem drawLoop_conserved (seats : List Nat) (g : GameState)
    (acc : List (Nat × Card)) (g' : GameState) (ds : List (Nat × Card))
    (h : drawLoop seats g acc = some (g', ds)) :
    handsM g'.players + (g'.center_pile : Multiset Card) =
      handsM g.players + (g.center_pile : Multiset Card) ∧
    g'.mode = g.mode ∧ g'.players.length = g.players.length ∧
    g'.phase = g.phase ∧ g'.tricks_won = g.tricks_won ∧
    g'.current_trick = g.current_trick ∧ g'.trump_card = g.trump_card ∧
    g'.trump_revealed = g.trump_revealed := by
  induction seats generalizing g acc with
  | nil =>
    unfold drawLoop at h
    simp only [Option.some.injEq, Prod.mk.injEq] at h
    obtain ⟨hg, -⟩ := h
    subst hg
    exact ⟨rfl, rfl, rfl, rfl, rfl, rfl, rfl, rfl⟩
  | cons s rest ih =>
    unfold drawLoop at h
    split at h
    · simp only [Option.some.injEq, Prod.mk.injEq] at h
      obtain ⟨hg, -⟩ := h
      subst hg
      exact ⟨rfl, rfl, rfl, rfl, rfl, rfl, rfl, rfl⟩
    · rename_i c cp hcp
      split at h
      · simp at h
      · rename_i p hp
        have hrec := ih _ _ h
        obtain ⟨h1, h2, h3, h4, h5, h6, h7, h8⟩ := hrec
        refine ⟨?_, h2, ?_, h4, h5, h6, h7, h8⟩
        · rw [h1]
          dsimp only
          rw [handsM_give_one g.players s p c hp, hcp]
          have : ((c :: cp : List Card) : Multiset Card) =
              {c} + (cp : Multiset Card) := rfl
          rw [this]
          abel
        · rw [h3]
          simp [updateHand_length]

/-- `conservedCards`, regrouped. -/
theorem conservedCards_eq (g : GameState) :
    conservedCards g =
      (handsM g.players + (g.center_pile : Multiset Card)) +
        (tricksM g.tricks_won +
          ((g.current_trick.map TrickCard.card : List Card) : Multiset Card) +
          trumpSlotM g) := by
  unfold conservedCards
  abel

/-- Two states with pooled hands+center and identical other card containers
have the same conserved multiset. -/
theorem conserved_of_parts (ga gb : GameState)
    (h1 : handsM ga.players + (ga.center_pile : Multiset Card) =
          handsM gb.players + (gb.center_pile : Multiset Card))
    (h5 : ga.tricks_won = gb.tricks_won)
    (h6 : ga.current_trick = gb.current_trick)
    (h7 : ga.trump_card = gb.trump_card)
    (h8 : ga.trump_revealed = gb.trump_revealed) :
    conservedCards ga = conservedCards gb := by
  have hs : trumpSlotM ga = trumpSlotM gb := by
    unfold trumpSlotM
    rw [h7, h8]
  rw [conservedCards_eq, conservedCards_eq, h1, h5, h6, hs]

/-- Banking a finished trick into the winner's pile conserves the cards. -/
theorem conserved_bank (g : GameState) (tc0 : TrickCard)
    (rest : List TrickCard) (w n : Nat)
    (htr : g.current_trick = tc0 :: rest) :
    conservedCards
      { g with
        tricks_won :=
          alistExtend g.tricks_won w ((tc0 :: rest).map TrickCard.card),
        current_trick := [], trick_number := n } = conservedCards g := by
  unfold conservedCards trumpSlotM
  dsimp only
  rw [tricksM_alistExtend, htr]
  simp only [List.map_nil, Multiset.coe_nil]
  abel

/-- `_resolve_trick` conserves the card multiset: the trick moves into the
winner's pile, 2-player draws move center cards into hands, and a forced
final reveal moves the trump card into the trumper's hand. -/
theorem resolveTrick_conserved (g g' : GameState) (r : ResolveResult)
    (h : resolveTrick g = some (g', r)) :
    conservedCards g' = conservedCards g ∧ g'.mode = g.mode ∧
    g'.players.length = g.players.length ∧ g'.phase = g.phase ∧
    g'.trump_card = g.trump_card := by
  unfold resolveTrick at h
  split at h
  · simp at h
  · rename_i tc0 rest htr
    dsimp only at h
    split at h
    · simp at h
    · rename_i g2 draws hstep
      have hg2 : conservedCards g2 = conservedCards g ∧ g2.mode = g.mode ∧
          g2.players.length = g.players.length ∧ g2.phase = g.phase ∧
          g2.trump_card = g.trump_card := by
        split at hstep
        · unfold drawCards2p at hstep
          have hd := drawLoop_conserved _ _ _ _ _ hstep
          obtain ⟨d1, d2, d3, d4, d5, d6, d7, d8⟩ := hd
          refine ⟨?_, d2, d3, d4, d7⟩
          have hA := conserved_of_parts _ _ d1 d5 d6 d7 d8
          rw [hA]
          exact conserved_bank g tc0 rest _ _ htr
        · simp only [Option.some.injEq, Prod.mk.injEq] at hstep
          obtain ⟨hg2eq, -⟩ := hstep
          rw [← hg2eq]
          exact ⟨conserved_bank g tc0 rest _ _ htr, rfl, rfl, rfl, rfl⟩
      obtain ⟨hc2, hm2, hl2, hp2, ht2⟩ := hg2
      split at h
      · -- mode 2: game over or next trick
        split at h
        · split at h
          · split at h
            · simp only [Option.some.injEq, Prod.mk.injEq] at h
              obtain ⟨hg, -⟩ := h
              subst hg
              exact ⟨hc2, hm2, hl2, hp2, ht2⟩
            · split at h
              · simp only [Option.some.injEq, Prod.mk.injEq] at h
                obtain ⟨hg, -⟩ := h
                subst hg
                exact ⟨hc2, hm2, hl2, hp2, ht2⟩
              · simp only [Option.some.injEq, Prod.mk.injEq] at h
                obtain ⟨hg, -⟩ := h
                subst hg
                exact ⟨hc2, hm2, hl2, hp2, ht2⟩
          · simp at h
        · simp at h
      · -- modes 3/4
        split at h
        · split at h
          · split at h
            · simp at h
            · rename_i fst snd g3 hrev
              simp only [Option.some.injEq, Prod.mk.injEq] at h
              obtain ⟨hg, -⟩ := h
              subst hg
              have hr := reveal_trump_conserved g2 fst snd _ hrev
              obtain ⟨r1, r2, r3, r4, r5⟩ := hr
              exact ⟨r1.trans hc2, r2.trans hm2, r3.trans hl2, r4.trans hp2,
                r5.trans ht2⟩
          · simp only [Option.some.injEq, Prod.mk.injEq] at h
            obtain ⟨hg, -⟩ := h
            subst hg
            exact ⟨hc2, hm2, hl2, hp2, ht2⟩
        · split at h
          · simp only [Option.some.injEq, Prod.mk.injEq] at h
            obtain ⟨hg, -⟩ := h
            subst hg
            exact ⟨hc2, hm2, hl2, hp2, ht2⟩
          · simp only [Option.some.injEq, Prod.mk.injEq] at h
            obtain ⟨hg, -⟩ := h
            subst hg
            exact ⟨hc2, hm2, hl2, hp2, ht2⟩

/-- Removing a played card from the hand while appending it to the trick
conserves the cards. -/
theorem conserved_play_step (g : GameState) (s : Nat) (p : Player) (c : Card)
    (hp : getPlayerBySeat g.players s = some p) (hm : c ∈ p.hand) :
    conservedCards
      { g with players := updateHand g.players s (fun h => h.erase c),
               current_trick := g.current_trick ++ [⟨s, c⟩] } =
      conservedCards g := by
  unfold conservedCards trumpSlotM
  dsimp only
  have he := handsM_erase_one g.players s p c hp hm
  simp only [List.map_append, List.map_cons, List.map_nil]
  have happ :
      ((g.current_trick.map TrickCard.card ++ [c] : List Card) :
          Multiset Card) =
        ((g.current_trick.map TrickCard.card : List Card) : Multiset Card) +
          {c} := rfl
  rw [happ, ← he]
  abel

/-- `play_card` conserves the card multiset. -/
theorem play_card_conserved (g : GameState) (s : Nat) (c : Card)
    (g' : GameState) (r : PlayResult) (h : play_card g s c = some (g', r)) :
    conservedCards g' = conservedCards g ∧ g'.mode = g.mode ∧
    g'.players.length = g.players.length ∧ g'.phase = g.phase ∧
    g'.trump_card = g.trump_card := by
  unfold play_card at h
  split at h
  · simp at h
  · rename_i p hp
    split at h
    · simp at h
    · rename_i hand1 hrm
      have hm : c ∈ p.hand := by
        unfold removeCard at hrm
        split at hrm
        · assumption
        · simp at hrm
      have hstep := conserved_play_step g s p c hp hm
      dsimp only at h
      split at h
      · -- trick complete: resolve
        split at h
        · simp at h
        · rename_i g3 rr hres
          simp only [Option.some.injEq, Prod.mk.injEq] at h
          obtain ⟨hg, -⟩ := h
          subst hg
          have hr := resolveTrick_conserved _ _ _ hres
          obtain ⟨r1, r2, r3, r4, r5⟩ := hr
          refine ⟨r1.trans hstep, r2, ?_, r4, r5⟩
          rw [r3]
          simp [updateHand_length]
      · -- trick not complete: advance turn
        simp only [Option.some.injEq, Prod.mk.injEq] at h
        obtain ⟨hg, -⟩ := h
        subst hg
        exact ⟨hstep, rfl, by simp [updateHand_length], rfl, rfl⟩

/-- `_score_game` only moves score tokens, never cards. -/
theorem scoreGame_conserved (g g' : GameState) (r : ScoreResult)
    (h : scoreGame g = some (g', r)) :
    conservedCards g' = conservedCards g ∧ g'.mode = g.mode ∧
    g'.players.length = g.players.length ∧
    g'.phase = GamePhase.SCORING := by
  unfold scoreGame at h
  dsimp only at h
  split at h
  · simp only [Option.some.injEq, Prod.mk.injEq] at h
    obtain ⟨hg, -⟩ := h
    subst hg
    exact ⟨rfl, rfl, rfl, rfl⟩
  · split at h
    · simp at h
    · split at h
      · simp at h
      · split at h <;>
        · simp only [Option.some.injEq, Prod.mk.injEq] at h
          obtain ⟨hg, -⟩ := h
          subst hg
          exact ⟨rfl, rfl, rfl, rfl⟩

/-- `_advance_bidding` (and its conclusion) only touches bidding fields. -/
theorem advanceBidding_fields (g : GameState) :
    conservedCards (advanceBidding g).1 = conservedCards g ∧
    (advanceBidding g).1.mode = g.mode ∧
    (advanceBidding g).1.players.length = g.players.length ∧
    (advanceBidding g).1.trump_card = g.trump_card ∧
    ((advanceBidding g).1.phase = g.phase ∨
      (advanceBidding g).1.phase = GamePhase.TRUMP_SELECTION) := by
  unfold advanceBidding concludeBidding
  split
  · exact ⟨rfl, rfl, rfl, rfl, Or.inl rfl⟩
  · dsimp only
    split <;> exact ⟨rfl, rfl, rfl, rfl, Or.inr rfl⟩

/-- `place_bid` only touches bidding fields. -/
theorem place_bid_fields (g : GameState) (s : Nat) (a : Option Nat) :
    conservedCards (place_bid g s a).1 = conservedCards g ∧
    (place_bid g s a).1.mode = g.mode ∧
    (place_bid g s a).1.players.length = g.players.length ∧
    (place_bid g s a).1.trump_card = g.trump_card ∧
    ((place_bid g s a).1.phase = g.phase ∨
      (place_bid g s a).1.phase = GamePhase.TRUMP_SELECTION) := by
  unfold place_bid
  dsimp only
  split <;>
    exact ⟨(advanceBidding_fields _).1, (advanceBidding_fields _).2.1,
      (advanceBidding_fields _).2.2.1, (advanceBidding_fields _).2.2.2.1,
      (advanceBidding_fields _).2.2.2.2⟩

/-- `_set_first_player` moves no cards. -/
theorem setFirstPlayer_fields (g : GameState) :
    conservedCards (setFirstPlayer g) = conservedCards g ∧
    (setFirstPlayer g).mode = g.mode ∧
    (setFirstPlayer g).players.length = g.players.length ∧
    (setFirstPlayer g).phase = g.phase :=
  ⟨rfl, rfl, rfl, rfl⟩

/-- The slot is empty whenever no trump card is stashed. -/
theorem trumpSlotM_none (g : GameState) (h : g.trump_card = none) :
    trumpSlotM g = 0 := by
  unfold trumpSlotM
  split
  · rfl
  · rw [h]

/-- `select_trump` conserves the cards: the chosen card moves from the
trumper's hand into the engine slot (the slot was empty beforehand). -/
theorem select_trump_conserved (g : GameState) (s : Nat) (suit : Suit)
    (c : Card) (g' : GameState) (ph : GamePhase)
    (htc : g.trump_card = none)
    (h : select_trump g s suit c = some (g', ph)) :
    conservedCards g' = conservedCards g ∧ g'.mode = g.mode ∧
    g'.players.length = g.players.length ∧
    (g'.phase = GamePhase.CARD_EXCHANGE ∨ g'.phase = GamePhase.PLAYING) := by
  unfold select_trump at h
  split at h
  · simp at h
  · rename_i p hp
    split at h
    · simp at h
    · rename_i hand1 hrm
      have hm : c ∈ p.hand := by
        unfold removeCard at hrm
        split at hrm
        · assumption
        · simp at hrm
      have he := handsM_erase_one g.players s p c hp hm
      have hslot := trumpSlotM_none g htc
      dsimp only at h
      have hcons : ∀ gmid : GameState,
          gmid.players = updateHand g.players s (fun h => h.erase c) →
          gmid.center_pile = g.center_pile →
          gmid.tricks_won = g.tricks_won →
          gmid.current_trick = g.current_trick →
          gmid.trump_card = some c → gmid.trump_revealed = false →
          conservedCards gmid = conservedCards g := by
        intro gmid h1 h2 h3 h4 h5 h6
        rw [conservedCards_eq, conservedCards_eq, h1, h2, h3, h4]
        have hslot2 : trumpSlotM gmid = {c} := by
          unfold trumpSlotM
          rw [h5, h6]
          rfl
        rw [hslot2, hslot, ← he]
        abel
      split at h
      · simp only [Option.some.injEq, Prod.mk.injEq] at h
        obtain ⟨hg, -⟩ := h
        subst hg
        refine ⟨hcons _ rfl rfl rfl rfl rfl rfl, rfl, by simp [updateHand_length],
          Or.inl rfl⟩
      · simp only [Option.some.injEq, Prod.mk.injEq] at h
        obtain ⟨hg, -⟩ := h
        subst hg
        refine ⟨?_,
          rfl,
          ((setFirstPlayer_fields _).2.2.1).trans (by simp [updateHand_length]),
          Or.inr rfl⟩
        exact hcons _ rfl rfl rfl rfl rfl rfl

theorem removeCards_multiset (cs : List Card) (hand h' : List Card)
    (h : removeCards hand cs = some h') :
    (h' : Multiset Card) + (cs : Multiset Card) = (hand : Multiset Card) := by
  induction cs generalizing hand with
  | nil =>
    unfold removeCards at h
    simp only [Option.some.injEq] at h
    subst h
    simp
  | cons c rest ih =>
    unfold removeCards at h
    split at h
    · simp at h
    · rename_i h1 hrc
      have ha := removeCard_multiset hand h1 c hrc
      have hb := ih _ h
      calc (h' : Multiset Card) + ((c :: rest : List Card) : Multiset Card)
          = ((h' : Multiset Card) + (rest : Multiset Card)) + {c} := by
            have hcc : ((c :: rest : List Card) : Multiset Card) =
                {c} + (rest : Multiset Card) := by simp
            rw [hcc]
            abel
        _ = (h1 : Multiset Card) + {c} := by rw [hb]
        _ = (hand : Multiset Card) := ha

/-- `exchange_cards` swaps two hand cards with the center pile and
conserves the card multiset. -/
theorem exchange_cards_conserved (g : GameState) (s : Nat)
    (cards : List Card) (g' : GameState)
    (h : exchange_cards g s cards = some g') :
    conservedCards g' = conservedCards g ∧ g'.mode = g.mode ∧
    g'.players.length = g.players.length ∧ g'.phase = GamePhase.PLAYING := by
  unfold exchange_cards at h
  split at h
  · simp at h
  · rename_i p hp
    split at h
    · simp at h
    · rename_i hand1 hrm
      dsimp only at h
      simp only [Option.some.injEq] at h
      subst h
      have hup := handsM_updateHand g.players s p
        (fun _ => hand1 ++ g.center_pile) hp
      have hrc := removeCards_multiset cards p.hand hand1 hrm
      refine ⟨?_, rfl,
        ((setFirstPlayer_fields _).2.2.1).trans (by simp [updateHand_length]),
        rfl⟩
      have hmain :
          handsM (updateHand g.players s (fun _ => hand1 ++ g.center_pile)) +
              (cards : Multiset Card) =
            handsM g.players + (g.center_pile : Multiset Card) := by
        apply add_right_cancel (b := (p.hand : Multiset Card))
        calc handsM (updateHand g.players s (fun _ => hand1 ++ g.center_pile)) +
              (cards : Multiset Card) + (p.hand : Multiset Card)
            = handsM (updateHand g.players s (fun _ => hand1 ++ g.center_pile)) +
                (p.hand : Multiset Card) + (cards : Multiset Card) := by abel
          _ = (handsM g.players +
                ((hand1 ++ g.center_pile : List Card) : Multiset Card)) +
                (cards : Multiset Card) := by rw [hup]
          _ = handsM g.players + (g.center_pile : Multiset Card) +
                ((hand1 : Multiset Card) + (cards : Multiset Card)) := by
              have hcc : ((hand1 ++ g.center_pile : List Card) : Multiset Card) =
                  (hand1 : Multiset Card) + (g.center_pile : Multiset Card) := rfl
              rw [hcc]
              abel
          _ = handsM g.players + (g.center_pile : Multiset Card) +
                (p.hand : Multiset Card) := by rw [hrc]
      show conservedCards _ = conservedCards g
      rw [(setFirstPlayer_fields _).1]
      unfold conservedCards trumpSlotM
      dsimp only
      rw [hmain]

/-- `skip_exchange` moves no cards. -/
theorem skip_exchange_fields (g : GameState) (s : Nat) (m : String)
    (g' : GameState) (h : skip_exchange g s = (true, m, g')) :
    conservedCards g' = conservedCards g ∧ g'.mode = g.mode ∧
    g'.players.length = g.players.length ∧ g'.phase = GamePhase.PLAYING := by
  unfold skip_exchange at h
  split at h
  · simp at h
  · split at h
    · simp at h
    · simp only [Prod.mk.injEq] at h
      obtain ⟨-, -, hg⟩ := h
      subst hg
      exact ⟨rfl, rfl, rfl, rfl⟩

theorem insertSorted_perm (x : Nat) (l : List Nat) :
    (insertSorted x l).Perm (x :: l) := by
  induction l with
  | nil => exact List.Perm.refl _
  | cons y ys ih =>
    unfold insertSorted
    split
    · exact List.Perm.refl _
    · exact List.Perm.trans (List.Perm.cons y ih) (List.Perm.swap x y ys)

theorem sortNat_perm (l : List Nat) : (sortNat l).Perm l := by
  induction l with
  | nil => exact List.Perm.refl _
  | cons x xs ih =>
    unfold sortNat at ih ⊢
    simp only [List.foldr_cons]
    exact List.Perm.trans (insertSorted_perm _ _) (List.Perm.cons x ih)

theorem sortNat_length (l : List Nat) : (sortNat l).length = l.length :=
  (sortNat_perm l).length_eq

theorem getPlayerBySeat_mem (ps : List Player) (s : Nat)
    (h : s ∈ ps.map Player.seat) : ∃ p, getPlayerBySeat ps s = some p := by
  induction ps with
  | nil => simp at h
  | cons q rest ih =>
    unfold getPlayerBySeat
    by_cases hq : q.seat = s
    · exact ⟨q, by simp [hq]⟩
    · simp only [hq, if_false]
      apply ih
      simp only [List.map_cons, List.mem_cons] at h
      rcases h with h | h
      · exact absurd h.symm hq
      · exact h

/-- Giving cards to a seated seat adds them to the pooled hands. -/
theorem handsM_give (ps : List Player) (s : Nat) (cs : List Card)
    (h : s ∈ ps.map Player.seat) :
    handsM (giveToSeat ps s cs) = handsM ps + (cs : Multiset Card) := by
  obtain ⟨p, hp⟩ := getPlayerBySeat_mem ps s h
  have hu := handsM_updateHand ps s p (fun h => h ++ cs) hp
  apply add_right_cancel (b := (p.hand : Multiset Card))
  calc handsM (giveToSeat ps s cs) + (p.hand : Multiset Card)
      = handsM ps + ((p.hand ++ cs : List Card) : Multiset Card) := hu
    _ = handsM ps + (cs : Multiset Card) + (p.hand : Multiset Card) := by
        have hcc : ((p.hand ++ cs : List Card) : Multiset Card) =
            (p.hand : Multiset Card) + (cs : Multiset Card) := rfl
        rw [hcc]
        abel

/-- The dealing loop hands out consecutive deck segments. -/
theorem dealLoop_spec (deck : List Card) (pairs : List (Nat × Nat)) :
    ∀ (idx : Nat) (ps : List Player),
    (∀ pr ∈ pairs, pr.2 ∈ ps.map Player.seat) →
    handsM (dealLoop deck pairs idx ps).1 =
      handsM ps +
        (((deck.drop idx).take ((pairs.map Prod.fst).sum) : List Card) :
          Multiset Card) ∧
    (dealLoop deck pairs idx ps).2 = idx + (pairs.map Prod.fst).sum ∧
    (dealLoop deck pairs idx ps).1.map Player.seat = ps.map Player.seat ∧
    (dealLoop deck pairs idx ps).1.length = ps.length := by
  induction pairs with
  | nil =>
    intro idx ps hmem
    simp [dealLoop]
  | cons pr rest ih =>
    rcases pr with ⟨b, s⟩
    intro idx ps hmem
    unfold dealLoop
    have hs : s ∈ ps.map Player.seat := hmem (b, s) (by simp)
    have hg := handsM_give ps s ((deck.drop idx).take b) hs
    have hmem2 : ∀ pr ∈ rest,
        pr.2 ∈ (giveToSeat ps s ((deck.drop idx).take b)).map Player.seat := by
      intro pr hpr
      rw [giveToSeat, updateHand_seats]
      exact hmem pr (by simp [hpr])
    obtain ⟨i1, i2, i3, i4⟩ := ih (idx + b) _ hmem2
    refine ⟨?_, ?_, ?_, ?_⟩
    · rw [i1, hg]
      have hseg : (deck.drop idx).take b ++
            (deck.drop (idx + b)).take ((rest.map Prod.fst).sum) =
          (deck.drop idx).take (b + (rest.map Prod.fst).sum) := by
        rw [List.take_add, List.drop_drop]
      have hm : (((deck.drop idx).take b : List Card) : Multiset Card) +
            (((deck.drop (idx + b)).take ((rest.map Prod.fst).sum) :
              List Card) : Multiset Card) =
          (((deck.drop idx).take (b + (rest.map Prod.fst).sum) : List Card) :
            Multiset Card) := by
        rw [← hseg]
        rfl
      simp only [List.map_cons, List.sum_cons]
      rw [← hm]
      abel
    · simp only [List.map_cons, List.sum_cons]
      rw [i2]
      omega
    · rw [i3, giveToSeat, updateHand_seats]
    · rw [i4, giveToSeat, updateHand_length]

theorem handsM_cleared (ps : List Player) :
    handsM (ps.map (fun p => { p with hand := [] })) = 0 := by
  induction ps with
  | nil => rfl
  | cons p rest ih =>
    simp only [List.map_cons, handsM_cons, ih]
    rfl

theorem deck_length_32 (deck : List Card)
    (hdeck : (deck : Multiset Card) = fullDeckM) : deck.length = 32 := by
  have h := congrArg Multiset.card hdeck
  simpa using h

/-- One per-batch total: pairing every seat of the order with a batch size
contributes `b * order.length` cards. -/
theorem batch_sum (b : Nat) (order : List Nat) :
    (((order.map (fun s => (b, s))).map Prod.fst).sum) = b * order.length := by
  induction order with
  | nil => simp
  | cons s rest ih =>
    simp only [List.map_cons, List.sum_cons, ih, List.length_cons]
    ring

theorem flat_sum (batches : List Nat) (order : List Nat) :
    (((batches.flatMap (fun b => order.map (fun s => (b, s)))).map
      Prod.fst).sum) = (batches.map (fun b => b * order.length)).sum := by
  induction batches with
  | nil => simp
  | cons b bs ih =>
    simp only [List.flatMap_cons, List.map_append, List.sum_append, ih,
      List.map_cons, List.sum_cons, batch_sum]

theorem getD_mem_of_lt (l : List Nat) (i d : Nat) (h : i < l.length) :
    l.getD i d ∈ l := by
  rw [List.getD_eq_getElem l d h]
  exact List.getElem_mem h

theorem cleared_seats (ps : List Player) :
    (ps.map (fun p => { p with hand := [] })).map Player.seat =
      ps.map Player.seat := by
  induction ps with
  | nil => rfl
  | cons p rest ih => simp [ih]

/-- The dealing loop over a full batch schedule starting at index 0. -/
theorem deal_core (ps1 : List Player) (deck : List Card)
    (batches : List Nat) (order : List Nat)
    (hmem : ∀ s ∈ order, s ∈ ps1.map Player.seat) :
    handsM (dealLoop deck
        (batches.flatMap (fun b => order.map (fun s => (b, s)))) 0 ps1).1 =
      handsM ps1 +
        ((deck.take ((batches.map (fun b => b * order.length)).sum) :
          List Card) : Multiset Card) ∧
    (dealLoop deck
        (batches.flatMap (fun b => order.map (fun s => (b, s)))) 0 ps1).2 =
      (batches.map (fun b => b * order.length)).sum ∧
    (dealLoop deck
        (batches.flatMap (fun b => order.map (fun s => (b, s)))) 0 ps1).1.length
      = ps1.length := by
  have hprmem : ∀ pr ∈ batches.flatMap (fun b => order.map (fun s => (b, s))),
      pr.2 ∈ ps1.map Player.seat := by
    intro pr hpr
    simp only [List.mem_flatMap, List.mem_map] at hpr
    obtain ⟨b, hb, s, hs, rfl⟩ := hpr
    exact hmem s hs
  obtain ⟨i1, i2, i3, i4⟩ := dealLoop_spec deck _ 0 ps1 hprmem
  rw [flat_sum] at i1 i2
  refine ⟨?_, by rw [i2]; omega, i4⟩
  rw [i1, List.drop_zero]

/-- `deal` redistributes exactly the injected 32-card deck: afterwards the
conserved multiset is the full deck. -/
theorem dealWith_conserved (g : GameState) (deck : List Card)
    (hmode : g.mode = 2 ∨ g.mode = 3 ∨ g.mode = 4)
    (hlen : g.players.length = g.mode)
    (hdeck : (deck : Multiset Card) = fullDeckM)
    (htrick : g.current_trick = [])
    (htw : g.tricks_won = [])
    (htc : g.trump_card = none) :
    conservedCards (dealWith g deck) = fullDeckM ∧
    (dealWith g deck).mode = g.mode ∧
    (dealWith g deck).players.length = g.players.length ∧
    (dealWith g deck).phase = g.phase ∧
    (dealWith g deck).trump_card = g.trump_card := by
  have h32 := deck_length_32 deck hdeck
  have hnpos : 0 < g.players.length := by
    rcases hmode with h | h | h <;> omega
  have hOrder : ∀ s ∈ (List.range g.players.length).map (fun i =>
      (sortNat (g.players.map Player.seat)).getD
        ((idxOf (sortNat (g.players.map Player.seat)) g.dealer_seat + 1 + i) %
          g.players.length) 0),
      s ∈ (g.players.map (fun p => { p with hand := [] })).map Player.seat := by
    intro s hs
    rw [cleared_seats]
    simp only [List.mem_map, List.mem_range] at hs
    obtain ⟨i, -, rfl⟩ := hs
    have hidx : (idxOf (sortNat (g.players.map Player.seat)) g.dealer_seat +
        1 + i) % g.players.length <
        (sortNat (g.players.map Player.seat)).length := by
      rw [sortNat_length, List.length_map]
      exact Nat.mod_lt _ hnpos
    exact (sortNat_perm _).mem_iff.mp (getD_mem_of_lt _ _ 0 hidx)
  have hOrderLen : ((List.range g.players.length).map (fun i =>
      (sortNat (g.players.map Player.seat)).getD
        ((idxOf (sortNat (g.players.map Player.seat)) g.dealer_seat + 1 + i) %
          g.players.length) 0)).length = g.players.length := by
    rw [List.length_map, List.length_range]
  have hsplit : ∀ T : Nat,
      ((deck.take T : List Card) : Multiset Card) +
        ((deck.drop T : List Card) : Multiset Card) = fullDeckM := by
    intro T
    have : ((deck.take T ++ deck.drop T : List Card) : Multiset Card) =
        ((deck.take T : List Card) : Multiset Card) +
          ((deck.drop T : List Card) : Multiset Card) := rfl
    rw [← this, List.take_append_drop]
    exact hdeck
  rcases hmode with hm | hm | hm <;>
    (unfold dealWith ;
     dsimp only ;
     simp only [hm, if_true] ;
     try simp only [show ((3 : Nat) = 2) = False by simp, if_false, if_true] ;
     try simp only [show ((4 : Nat) = 2) = False by simp,
       show ((4 : Nat) = 3) = False by simp, if_false, if_true])
  · -- mode 2
    obtain ⟨c1, c2, c3⟩ := deal_core _ deck [4, 4, 2] _ hOrder
    refine ⟨?_, by trivial, by rw [c3, List.length_map], by trivial, by trivial⟩
    unfold conservedCards trumpSlotM
    dsimp only
    rw [c1, c2, handsM_cleared, htw, htrick, htc]
    simp only [tricksM, List.map_nil, List.sum_nil, Multiset.coe_nil,
      ite_self, zero_add, add_zero]
    exact hsplit _
  · -- mode 3
    obtain ⟨c1, c2, c3⟩ := deal_core _ deck [4, 4, 2] _ hOrder
    refine ⟨?_, by trivial, by rw [c3, List.length_map], by trivial, by trivial⟩
    unfold conservedCards trumpSlotM
    dsimp only
    rw [c1, c2, handsM_cleared, htw, htrick, htc]
    simp only [tricksM, List.map_nil, List.sum_nil, Multiset.coe_nil,
      ite_self, zero_add, add_zero]
    exact hsplit _
  · -- mode 4: all 32 cards go to hands
    obtain ⟨c1, c2, c3⟩ := deal_core _ deck [4, 4] _ hOrder
    refine ⟨?_, by trivial, by rw [c3, List.length_map], by trivial, by trivial⟩
    unfold conservedCards trumpSlotM
    dsimp only
    rw [c1, handsM_cleared, htw, htrick, htc]
    have hT : (([4, 4] : List Nat).map (fun b => b *
        ((List.range g.players.length).map (fun i =>
          (sortNat (g.players.map Player.seat)).getD
            ((idxOf (sortNat (g.players.map Player.seat)) g.dealer_seat +
              1 + i) % g.players.length) 0)).length)).sum = 32 := by
      rw [hOrderLen]
      simp [hlen, hm]
    rw [hT]
    have htake : deck.take 32 = deck := by
      rw [← h32]
      exact List.take_length deck
    rw [htake]
    simp only [tricksM, List.map_nil, List.sum_nil, Multiset.coe_nil,
      ite_self, zero_add, add_zero]
    exact hdeck

/-- A bid only validates during the bidding phase. -/
theorem validate_bid_phase (g : GameState) (seat : Nat) (amount : Option Nat)
    (h : (validate_bid g seat amount).1 = true) :
    g.phase = GamePhase.BIDDING := by
  unfold validate_bid at h
  split at h
  · simp at h
  · rename_i hph
    exact not_not.mp hph

/-- A trump selection only validates during `TRUMP_SELECTION`. -/
theorem validate_trump_selection_phase (g : GameState) (seat : Nat)
    (suit : Suit) (card : Card)
    (h : (validate_trump_selection g seat suit card).1 = true) :
    g.phase = GamePhase.TRUMP_SELECTION := by
  unfold validate_trump_selection at h
  split at h
  · simp at h
  · rename_i hph
    exact not_not.mp hph

/-- A play only validates during the playing phase. -/
theorem validate_play_phase (g : GameState) (seat : Nat) (card : Card)
    (w : Bool) (h : (validate_play g seat card w).1 = true) :
    g.phase = GamePhase.PLAYING := by
  unfold validate_play at h
  split at h
  · simp at h
  · rename_i hph
    exact not_not.mp hph

/-- `start_bidding` only touches bidding bookkeeping fields. -/
theorem start_bidding_fields (g : GameState) :
    conservedCards (start_bidding g) = conservedCards g ∧
    (start_bidding g).mode = g.mode ∧
    (start_bidding g).players.length = g.players.length ∧
    (start_bidding g).trump_card = g.trump_card ∧
    (start_bidding g).phase = GamePhase.BIDDING :=
  ⟨rfl, rfl, rfl, rfl, rfl⟩

/-- Dealing a full deck permutation and opening the bidding establishes the
invariant on any complete pre-deal state. -/
theorem deal_and_bid_inv (g : GameState) (deck : List Card)
    (hmode : g.mode = 2 ∨ g.mode = 3 ∨ g.mode = 4)
    (hlen : g.players.length = g.mode)
    (hdeck : (deck : Multiset Card) = fullDeckM)
    (htrick : g.current_trick = [])
    (htw : g.tricks_won = [])
    (htc : g.trump_card = none) :
    Inv (start_bidding (dealWith g deck)) := by
  obtain ⟨d1, d2, d3, d4, d5⟩ :=
    dealWith_conserved g deck hmode hlen hdeck htrick htw htc
  obtain ⟨s1, s2, s3, s4, s5⟩ := start_bidding_fields (dealWith g deck)
  refine ⟨s1.trans d1, ?_, ?_, ?_⟩
  · rw [s2, d2]
    exact hmode
  · rw [s3, d3, s2, d2]
    exact hlen
  · intro h5
    rw [s4, d5]
    exact htc

/-- When `auto_play` reports "no valid cards", the state is untouched. -/
theorem auto_play_none (g : GameState) (seat i j : Nat) (g1 : GameState)
    (h : auto_play g seat i j = some (g1, none)) : g1 = g := by
  unfold auto_play at h
  split at h
  · simp at h
  · split at h
    · simp only [Option.some.injEq, Prod.mk.injEq] at h
      exact h.1.symm
    · split at h
      · simp at h
      · simp at h

/-- When `auto_play` plays, the new state comes from `play_card` on some
card. -/
theorem auto_play_some (g : GameState) (seat i j : Nat) (g1 : GameState)
    (r : PlayResult) (h : auto_play g seat i j = some (g1, some r)) :
    ∃ c, play_card g seat c = some (g1, r) := by
  unfold auto_play at h
  split at h
  · simp at h
  · split at h
    · simp at h
    · split at h
      · simp at h
      · rename_i gp rp hpc
        simp only [Option.some.injEq, Prod.mk.injEq] at h
        obtain ⟨h1, h2⟩ := h
        exact ⟨_, by rw [hpc, h1, h2]⟩

/-- `start_game` establishes the invariant on a complete lobby. -/
theorem inv_start (g : GameState) (dealer : Nat) (deck : List Card)
    (g' : GameState)
    (hmode : g.mode = 2 ∨ g.mode = 3 ∨ g.mode = 4)
    (htrick : g.current_trick = [])
    (htw : g.tricks_won = [])
    (htc : g.trump_card = none)
    (hdeck : (deck : Multiset Card) = fullDeckM)
    (hok : start_game g dealer deck = (true, "", g')) : Inv g' := by
  unfold start_game at hok
  split at hok
  · simp at hok
  · split at hok
    · simp at hok
    · rename_i hlen'
      have hlen : g.players.length = g.mode := not_not.mp hlen'
      dsimp only at hok
      simp only [Prod.mk.injEq] at hok
      obtain ⟨-, -, hg⟩ := hok
      subst hg
      exact deal_and_bid_inv _ deck hmode hlen hdeck htrick htw htc

/-- `handle_bid` preserves the invariant. -/
theorem inv_bid (g : GameState) (seat : Nat) (amount : Option Nat)
    (g' : GameState) (r : BidResult) (hInv : Inv g)
    (hok : handle_bid g seat amount = (true, g', some r)) : Inv g' := by
  obtain ⟨hc, hm, hl, htc⟩ := hInv
  unfold handle_bid at hok
  dsimp only at hok
  split at hok
  · rename_i hv
    simp only [Prod.mk.injEq] at hok
    obtain ⟨-, hg, -⟩ := hok
    subst hg
    have hph := validate_bid_phase g seat amount hv
    have htcn : g.trump_card = none := htc (Or.inl hph)
    obtain ⟨p1, p2, p3, p4, p5⟩ := place_bid_fields g seat amount
    refine ⟨p1.trans hc, ?_, ?_, ?_⟩
    · rw [p2]
      exact hm
    · rw [p3, p2]
      exact hl
    · intro h5
      rw [p4]
      exact htcn
  · simp at hok

/-- `handle_trump_selection` preserves the invariant: the trump slot was
empty during `TRUMP_SELECTION` and receives the chosen card. -/
theorem inv_selectTrump (g : GameState) (seat : Nat)
    (suit_str card_id : String) (g' : GameState) (ph : GamePhase)
    (hInv : Inv g)
    (hok : handle_trump_selection g seat suit_str card_id =
      (true, g', some ph)) : Inv g' := by
  obtain ⟨hc, hm, hl, htc⟩ := hInv
  unfold handle_trump_selection at hok
  split at hok
  · rename_i suit card hsuit hcard
    dsimp only at hok
    split at hok
    · rename_i hv
      split at hok
      · rename_i g1 ph1 hsel
        simp only [Prod.mk.injEq] at hok
        obtain ⟨-, hg, -⟩ := hok
        subst hg
        have hph := validate_trump_selection_phase g seat suit card hv
        have htcn : g.trump_card = none := htc (Or.inr hph)
        obtain ⟨s1, s2, s3, s4⟩ :=
          select_trump_conserved g seat suit card g1 ph1 htcn hsel
        refine ⟨s1.trans hc, ?_, ?_, ?_⟩
        · rw [s2]
          exact hm
        · rw [s3, s2]
          exact hl
        · intro h5
          rcases s4 with h4 | h4 <;> rcases h5 with h5 | h5 <;>
            rw [h4] at h5 <;> exact absurd h5 (by decide)
      · simp at hok
    · simp at hok
  · simp at hok

/-- `handle_card_exchange` preserves the invariant. -/
theorem inv_exchange (g : GameState) (seat : Nat) (card_ids : List String)
    (g' : GameState) (hInv : Inv g)
    (hok : handle_card_exchange g seat card_ids = (true, g')) : Inv g' := by
  obtain ⟨hc, hm, hl, htc⟩ := hInv
  unfold handle_card_exchange at hok
  split at hok
  · simp at hok
  · rename_i cards hcards
    dsimp only at hok
    split at hok
    · split at hok
      · rename_i g1 hexc
        simp only [Prod.mk.injEq] at hok
        obtain ⟨-, hg⟩ := hok
        subst hg
        obtain ⟨e1, e2, e3, e4⟩ := exchange_cards_conserved g seat cards g1 hexc
        refine ⟨e1.trans hc, ?_, ?_, ?_⟩
        · rw [e2]
          exact hm
        · rw [e3, e2]
          exact hl
        · intro h5
          rcases h5 with h5 | h5 <;> rw [e4] at h5 <;> exact absurd h5 (by decide)
      · simp at hok
    · simp at hok

/-- `handle_skip_exchange` preserves the invariant. -/
theorem inv_skip (g : GameState) (seat : Nat) (g' : GameState) (hInv : Inv g)
    (hok : handle_skip_exchange g seat = (true, g')) : Inv g' := by
  obtain ⟨hc, hm, hl, htc⟩ := hInv
  unfold handle_skip_exchange at hok
  dsimp only at hok
  rcases hE : skip_exchange g seat with ⟨b, m, g2⟩
  rw [hE] at hok
  simp only [Prod.mk.injEq] at hok
  obtain ⟨h1, h2⟩ := hok
  subst h1
  subst h2
  obtain ⟨k1, k2, k3, k4⟩ := skip_exchange_fields g seat m g2 hE
  refine ⟨k1.trans hc, ?_, ?_, ?_⟩
  · rw [k2]
    exact hm
  · rw [k3, k2]
    exact hl
  · intro h5
    rcases h5 with h5 | h5 <;> rw [k4] at h5 <;> exact absurd h5 (by decide)

/-- `handle_play_card` preserves the invariant. -/
theorem inv_play (g : GameState) (seat : Nat) (card_id : String)
    (g' : GameState) (r : Option PlayResult) (hInv : Inv g)
    (hok : handle_play_card g seat card_id = (true, g', r)) : Inv g' := by
  obtain ⟨hc, hm, hl, htc⟩ := hInv
  unfold handle_play_card at hok
  split at hok
  · simp at hok
  · rename_i card hcard
    dsimp only at hok
    split at hok
    · rename_i hv
      split at hok
      · simp at hok
      · rename_i g1 r1 hplay
        obtain ⟨p1, p2, p3, p4, p5⟩ := play_card_conserved g seat card g1 r1 hplay
        have hph := validate_play_phase g seat card _ hv
        split at hok
        · split at hok
          · simp at hok
          · rename_i g2 sr hscore
            simp only [Prod.mk.injEq] at hok
            obtain ⟨-, hg, -⟩ := hok
            subst hg
            obtain ⟨q1, q2, q3, q4⟩ := scoreGame_conserved g1 g2 sr hscore
            refine ⟨(q1.trans p1).trans hc, ?_, ?_, ?_⟩
            · rw [q2, p2]
              exact hm
            · rw [q3, p3, q2, p2]
              exact hl
            · intro h5
              rcases h5 with h5 | h5 <;> rw [q4] at h5 <;>
                exact absurd h5 (by decide)
        · simp only [Prod.mk.injEq] at hok
          obtain ⟨-, hg, -⟩ := hok
          subst hg
          refine ⟨p1.trans hc, ?_, ?_, ?_⟩
          · rw [p2]
            exact hm
          · rw [p3, p2]
            exact hl
          · intro h5
            rcases h5 with h5 | h5 <;> rw [p4, hph] at h5 <;>
              exact absurd h5 (by decide)
    · simp at hok

/-- `handle_ask_trump` preserves the invariant. -/
theorem inv_ask (g : GameState) (seat : Nat) (g' : GameState) (hInv : Inv g)
    (hok : handle_ask_trump g seat = (true, g')) : Inv g' := by
  obtain ⟨hc, hm, hl, htc⟩ := hInv
  unfold handle_ask_trump at hok
  split at hok
  · simp at hok
  · split at hok
    · simp at hok
    · split at hok
      · simp at hok
      · rename_i hph'
        have hph : g.phase = GamePhase.PLAYING := not_not.mp hph'
        split at hok
        · simp at hok
        · split at hok
          · simp at hok
          · split at hok
            · simp at hok
            · split at hok
              · simp at hok
              · rename_i succ m g1 hrev
                split at hok
                · simp only [Prod.mk.injEq] at hok
                  obtain ⟨-, hg⟩ := hok
                  subst hg
                  obtain ⟨r1, r2, r3, r4, r5⟩ :=
                    reveal_trump_conserved g succ m g1 hrev
                  refine ⟨r1.trans hc, ?_, ?_, ?_⟩
                  · rw [r2]
                    exact hm
                  · rw [r3, r2]
                    exact hl
                  · intro h5
                    rcases h5 with h5 | h5 <;> rw [r4, hph] at h5 <;>
                      exact absurd h5 (by decide)
                · simp at hok

/-- `handle_reveal_trump` preserves the invariant. -/
theorem inv_reveal (g : GameState) (seat : Nat) (g' : GameState)
    (hInv : Inv g) (hok : handle_reveal_trump g seat = (true, g')) :
    Inv g' := by
  obtain ⟨hc, hm, hl, htc⟩ := hInv
  unfold handle_reveal_trump at hok
  split at hok
  · simp at hok
  · split at hok
    · simp at hok
    · rename_i hph'
      have hph : g.phase = GamePhase.PLAYING := not_not.mp hph'
      split at hok
      · simp at hok
      · rename_i succ m g1 hrev
        split at hok
        · simp only [Prod.mk.injEq] at hok
          obtain ⟨-, hg⟩ := hok
          subst hg
          obtain ⟨r1, r2, r3, r4, r5⟩ := reveal_trump_conserved g succ m g1 hrev
          refine ⟨r1.trans hc, ?_, ?_, ?_⟩
          · rw [r2]
            exact hm
          · rw [r3, r2]
            exact hl
          · intro h5
            rcases h5 with h5 | h5 <;> rw [r4, hph] at h5 <;>
              exact absurd h5 (by decide)
        · simp at hok

/-- `handle_timeout` preserves the invariant. -/
theorem inv_timeout (g : GameState) (seat i j : Nat) (g' : GameState)
    (r : Option PlayResult) (hInv : Inv g)
    (hok : handle_timeout g seat i j = (true, g', r)) : Inv g' := by
  obtain ⟨hc, hm, hl, htc⟩ := hInv
  unfold handle_timeout at hok
  split at hok
  · simp at hok
  · split at hok
    · simp at hok
    · -- auto_play returned its error dict: the state is untouched
      rename_i g1 hap
      simp only [Prod.mk.injEq] at hok
      obtain ⟨-, hg, -⟩ := hok
      subst hg
      have hgg := auto_play_none g seat i j g1 hap
      subst hgg
      exact ⟨hc, hm, hl, htc⟩
    · rename_i g1 r1 hap
      obtain ⟨c, hplay⟩ := auto_play_some g seat i j g1 r1 hap
      obtain ⟨p1, p2, p3, p4, p5⟩ := play_card_conserved g seat c g1 r1 hplay
      split at hok
      · split at hok
        · simp at hok
        · rename_i g2 sr hscore
          simp only [Prod.mk.injEq] at hok
          obtain ⟨-, hg, -⟩ := hok
          subst hg
          obtain ⟨q1, q2, q3, q4⟩ := scoreGame_conserved g1 g2 sr hscore
          refine ⟨(q1.trans p1).trans hc, ?_, ?_, ?_⟩
          · rw [q2, p2]
            exact hm
          · rw [q3, p3, q2, p2]
            exact hl
          · intro h5
            rcases h5 with h5 | h5 <;> rw [q4] at h5 <;>
              exact absurd h5 (by decide)
      · simp only [Prod.mk.injEq] at hok
        obtain ⟨-, hg, -⟩ := hok
        subst hg
        refine ⟨p1.trans hc, ?_, ?_, ?_⟩
        · rw [p2]
          exact hm
        · rw [p3, p2]
          exact hl
        · intro h5
          rw [p4] at h5
          rw [p5]
          exact htc h5

/-- `next_game` preserves the invariant: everything is reset and a fresh
full deck is dealt. -/
theorem inv_nextGame (g : GameState) (deck : List Card) (g' : GameState)
    (hInv : Inv g) (hdeck : (deck : Multiset Card) = fullDeckM)
    (hok : next_game g deck = (true, "", g')) : Inv g' := by
  obtain ⟨hc, hm, hl, htc⟩ := hInv
  unfold next_game at hok
  split at hok
  · simp at hok
  · dsimp only at hok
    simp only [Prod.mk.injEq] at hok
    obtain ⟨-, -, hg⟩ := hok
    subst hg
    exact deal_and_bid_inv _ deck hm hl hdeck rfl rfl rfl

/-- Every reachable state satisfies the inductive invariant. -/
theorem reachable_inv (g : GameState) (hg : Reachable g) : Inv g := by
  induction hg with
  | start g dealer deck g' hmode htrick htw htc hdeck hok =>
    exact inv_start g dealer deck g' hmode htrick htw htc hdeck hok
  | bid g seat amount g' r hgr hok ih =>
    exact inv_bid g seat amount g' r ih hok
  | selectTrump g seat suit_str card_id g' ph hgr hok ih =>
    exact inv_selectTrump g seat suit_str card_id g' ph ih hok
  | exchange g seat card_ids g' hgr hok ih =>
    exact inv_exchange g seat card_ids g' ih hok
  | skip g seat g' hgr hok ih =>
    exact inv_skip g seat g' ih hok
  | play g seat card_id g' r hgr hok ih =>
    exact inv_play g seat card_id g' r ih hok
  | ask g seat g' hgr hok ih =>
    exact inv_ask g seat g' ih hok
  | reveal g seat g' hgr hok ih =>
    exact inv_reveal g seat g' ih hok
  | timeout g seat i j g' r hgr hok ih =>
    exact inv_timeout g seat i j g' r ih hok
  | nextGame g deck g' hgr hdeck hok ih =>
    exact inv_nextGame g deck g' ih hdeck hok

/-- C2: in every reachable state from the deal onward — i.e. after
`start_game` on a complete lobby followed by any sequence of successful
engine operations (bids, trump selection, exchange or skip, card plays,
trump ask/reveal, timeouts, next game) — the multiset union of all player
hands, the `center_pile`, all `tricks_won` piles, the `current_trick`
cards, and the `trump_card` while unrevealed is exactly the initial
32-card deck with each card once, and the card points of that union sum
to 304. -/
theorem conservation_reachable (g : GameState) (hg : Reachable g) :
    conservedCards g = fullDeckM ∧ totalPoints (conservedCards g) = 304 := by
  obtain ⟨hc, -, -, -⟩ := reachable_inv g hg
  refine ⟨hc, ?_⟩
  rw [hc]
  decide

/-- The conservation theorem applied to a freshly dealt 4-player game. -/
theorem conservation_reachable_witness :
    conservedCards (start_game (lobby 4 0) 0 create_deck).2.2 = fullDeckM ∧
    totalPoints
      (conservedCards (start_game (lobby 4 0) 0 create_deck).2.2) = 304 :=
  conservation_reachable _
    (Reachable.start (lobby 4 0) 0 create_deck _
      (by decide) (by decide) (by decide) (by decide) rfl (by decide))

end Trump304
